import Mathlib

/-!
# Portulano backend: trip access control and invite redemption

A shallow embedding of `src/controllers/tripController.js` and
`src/middleware/auth.js`.

* The database behind `prisma` is a record of five tables, each a list of rows
  in insertion order.  A handler is a function from the table state, the
  values the run time supplies (clock, generated id, random text) and the
  request to the new table state and the response.
* `req.userId` is `Option String`; `undefined` and `null` are both `none`.
* A thrown exception inside a handler lands in its `catch` block, which
  answers with the handler's own failure code; the `detail` text is dropped.
* Dates arrive already parsed (milliseconds since the epoch); `parseDate` and
  the PDF writer are not part of this development, and neither is the `user`
  table of `authController.js`.
-/

namespace Portulano

/-! ## Tables -/

/-- Row of `trip`. -/
structure Trip where
  id : String
  title : String
  description : Option String
  status : String
  startDate : Option Int
  endDate : Option Int
  createdById : String
  createdAt : Int
deriving DecidableEq

/-- Row of `tripMember`; `(tripId, userId)` is the compound unique key
`tripId_userId` the upsert of `joinTripByCode` addresses. -/
structure TripMember where
  tripId : String
  userId : String
  role : String
deriving DecidableEq

/-- Row of `accessCode`.  `maxUses = none` is SQL `NULL`. -/
structure AccessCode where
  id : String
  tripId : String
  role : String
  code : String
  maxUses : Option Int
  usedCount : Int
  expiresAt : Option Int
deriving DecidableEq

/-- Row of `checkItem`. -/
structure CheckItem where
  id : String
  tripId : String
  label : String
  done : Bool
  createdAt : Int
deriving DecidableEq

/-- Row of `day`. -/
structure Day where
  id : String
  tripId : String
  title : Option String
  «from» : Option String
  «to» : Option String
  distanceKm : Option Int
  eta : Option String
  notes : Option String
  order : Int
deriving DecidableEq

/-- The database. -/
structure Store where
  trips : List Trip
  members : List TripMember
  accessCodes : List AccessCode
  checklist : List CheckItem
  days : List Day
deriving DecidableEq

/-- The empty database. -/
def Store.empty : Store := ⟨[], [], [], [], []⟩

/-! ## Requests and responses -/

/-- What the run time hands a handler besides the request: the clock
(`new Date()`), the identifier the database gives a created row, and the text
`Math.random().toString(36).slice(2, 10)`. -/
structure Env where
  now : Int
  newId : String
  random : String
deriving DecidableEq

/-- An Express request as the trip handlers read it: `req.userId`,
`req.params` and the fields of `req.body`.  A body field is `none` when it is
`undefined`.  For `startDate` and `endDate`, `some none` is a present but falsy
value and `some (some d)` a date; for `notes`, `some none` is `null`. -/
structure Req where
  userId : Option String := none
  tripId : String := ""
  itemId : String := ""
  dayId : String := ""
  title : Option String := none
  description : Option String := none
  status : Option String := none
  startDate : Option (Option Int) := none
  endDate : Option (Option Int) := none
  label : Option String := none
  «from» : Option String := none
  «to» : Option String := none
  distanceKm : Option Int := none
  eta : Option String := none
  notes : Option (Option String) := none
  role : Option String := none
  type : Option String := none
  code : Option String := none
deriving DecidableEq

/-- A trip with the relations `include` loads. -/
structure TripDetail where
  trip : Trip
  checklist : List CheckItem
  days : List Day
  members : List TripMember
deriving DecidableEq

/-- The JSON (or stream) a handler sends. -/
inductive Payload where
  | error (code : String)
  | trips (rows : List (Trip × Nat × Nat))
  | trip (t : Trip)
  | detail (t : TripDetail) (currentRole : String) (canEdit : Bool)
  | item (i : CheckItem)
  | day (d : Day)
  | invite (code role type : String)
  | pdf (t : TripDetail)
  | empty
deriving DecidableEq

/-- An HTTP response: status and payload. -/
structure Response where
  status : Nat
  payload : Payload
deriving DecidableEq

/-- The answer `res.status(st).json({ error: code })`. -/
def fail (st : Nat) (code : String) : Response := ⟨st, .error code⟩

/-- The `currentRole` field of a response, when it has one. -/
def Response.currentRole (r : Response) : Option String :=
  match r.payload with
  | .detail _ role _ => some role
  | _ => none

/-- The error code of a response, when it is an error. -/
def Response.errorCode (r : Response) : Option String :=
  match r.payload with
  | .error c => some c
  | _ => none

/-! ## Queries -/

/-- The principal a handler acts for: `String(req.userId ?? 1)`. -/
def principal (req : Req) : String := req.userId.getD "1"

/-- The filter `OR: [{ createdById }, { members: { some: { userId } } }]`. -/
def Store.readableBy (s : Store) (userId : String) (t : Trip) : Bool :=
  t.createdById == userId ||
    s.members.any (fun m => m.tripId == t.id && m.userId == userId)

/-- The filter
`OR: [{ createdById }, { members: { some: { userId, role: 'admin' } } }]`. -/
def Store.editableBy (s : Store) (userId : String) (t : Trip) : Bool :=
  t.createdById == userId ||
    s.members.any (fun m => m.tripId == t.id && m.userId == userId && m.role == "admin")

/-- The query `prisma.trip.findFirst` with `id: tripId` and the read filter. -/
def Store.findReadable (s : Store) (tripId userId : String) : Option Trip :=
  s.trips.find? (fun t => t.id == tripId && s.readableBy userId t)

/-- The query `prisma.trip.findFirst` with `id: tripId` and the admin filter. -/
def Store.findEditable (s : Store) (tripId userId : String) : Option Trip :=
  s.trips.find? (fun t => t.id == tripId && s.editableBy userId t)

/-- The relations `include: { checklist: { orderBy: { createdAt: 'asc' } },
days: { orderBy: { order: 'asc' } }, members: true }` of a trip. -/
def Store.detail (s : Store) (t : Trip) : TripDetail :=
  { trip := t
    checklist := (s.checklist.filter (fun i => i.tripId == t.id)).insertionSort
      (fun a b => a.createdAt ≤ b.createdAt)
    days := (s.days.filter (fun d => d.tripId == t.id)).insertionSort
      (fun a b => a.order ≤ b.order)
    members := s.members.filter (fun m => m.tripId == t.id) }

/-- The role expression of `getTrip` and `joinTripByCode`:
`isOwner ? 'admin' : member?.role || 'viewer'`, with
`member = trip.members.find((m) => m.userId === userId)`. -/
def roleExpr (trip : TripDetail) (userId : String) : String :=
  let isOwner := trip.trip.createdById == userId
  let member := trip.members.find? (fun m => m.userId == userId)
  if isOwner then "admin"
  else match member with
    | some m => if m.role ≠ "" then m.role else "viewer"
    | none => "viewer"

/-- The answer `res.json({ ...trip, currentRole: role, canEdit })`. -/
def respondDetail (trip : TripDetail) (userId : String) : Response :=
  let role := roleExpr trip userId
  let canEdit := role == "admin"
  ⟨200, .detail trip role canEdit⟩

/-! ## Writes -/

/-- JavaScript truthiness of a value that is `undefined` or a string. -/
def truthy (v : Option String) : Bool :=
  match v with
  | some x => x != ""
  | none => false

/-- The value `v || null` for a value that is `undefined` or a string. -/
def orNull (v : Option String) : Option String :=
  if truthy v then v else none

/-- The write `update({ where: { id }, data })` on a table keyed by `id`: the
changed table and the changed row, or `none` when no row has that id (Prisma
throws). -/
def updateById {α : Type} (getId : α → String) (id : String) (f : α → α)
    (rows : List α) : Option (List α × α) :=
  match rows.find? (fun r => getId r == id) with
  | none => none
  | some r => some (rows.map (fun x => if getId x == id then f x else x), f r)

/-- The write `delete({ where: { id } })` on a table keyed by `id`, or `none`
when no row has that id (Prisma throws). -/
def deleteById {α : Type} (getId : α → String) (id : String)
    (rows : List α) : Option (List α) :=
  if rows.any (fun r => getId r == id) then
    some (rows.filter (fun r => !(getId r == id)))
  else none

/-- The write `create({ data })` on a table keyed by `id`, or `none` when the
id is taken (the primary key rejects the row and Prisma throws). -/
def createRow {α : Type} (getId : α → String) (row : α) (rows : List α) : Option (List α) :=
  if rows.any (fun r => getId r == getId row) then none else some (rows ++ [row])

/-- The write `prisma.accessCode.create`: `id` is the primary key and `code`
is unique (it is the key `findUnique({ where: { code } })` addresses). -/
def createAccessCode (row : AccessCode) (rows : List AccessCode) : Option (List AccessCode) :=
  if rows.any (fun r => r.id == row.id || r.code == row.code) then none
  else some (rows ++ [row])

/-- The write `prisma.tripMember.upsert` on the key `tripId_userId`:
`update: { role }` when the key has a row, `create` otherwise. -/
def upsertMember (tripId userId role : String) (rows : List TripMember) : List TripMember :=
  if rows.any (fun m => m.tripId == tripId && m.userId == userId) then
    rows.map (fun m =>
      if m.tripId == tripId && m.userId == userId then { m with role := role } else m)
  else rows ++ [{ tripId := tripId, userId := userId, role := role }]

/-- Modelled from the spec: the column defaults of `accessCode`, set by the
Prisma schema, which is not in src.  A created code starts with
`usedCount = 0` and no expiry. -/
def newAccessCode (id tripId role code : String) (maxUses : Option Int) : AccessCode :=
  { id := id, tripId := tripId, role := role, code := code, maxUses := maxUses
    usedCount := 0, expiresAt := none }

/-- Modelled from the spec: what `prisma.trip.delete` removes besides the trip
row is set by the Prisma schema, which is not in src.  Membership rows of the
trip go with it, and so do its days and checklist items; invite codes are
never deleted. -/
def Store.deleteTripCascade (s : Store) (tripId : String) : Option Store :=
  match deleteById Trip.id tripId s.trips with
  | none => none
  | some trips =>
    some { s with
      trips := trips
      members := s.members.filter (fun m => !(m.tripId == tripId))
      checklist := s.checklist.filter (fun i => !(i.tripId == tripId))
      days := s.days.filter (fun d => !(d.tripId == tripId)) }

/-! ## Handlers -/

/-- The handler `GET /trips`. -/
def listTrips (s : Store) (_env : Env) (req : Req) : Store × Response :=
  let userId := principal req
  let trips := (s.trips.filter (s.readableBy userId)).insertionSort
    (fun a b => b.createdAt ≤ a.createdAt)
  let safe := trips.map (fun t =>
    (t, (s.days.filter (fun d => d.tripId == t.id)).length,
      (s.checklist.filter (fun i => i.tripId == t.id)).length))
  (s, ⟨200, .trips safe⟩)

/-- The handler `POST /trips`. -/
def createTrip (s : Store) (env : Env) (req : Req) : Store × Response :=
  let userId := principal req
  if !truthy req.title then (s, fail 400 "TITLE_REQUIRED")
  else
    let trip : Trip :=
      { id := env.newId
        title := req.title.getD ""
        description := req.description
        status := req.status.getD "ideia"
        startDate := req.startDate.join
        endDate := req.endDate.join
        createdById := userId
        createdAt := env.now }
    match createRow Trip.id trip s.trips with
    | none => (s, fail 400 "CREATE_TRIP_FAILED")
    | some trips => ({ s with trips := trips }, ⟨201, .trip trip⟩)

/-- The handler `GET /trips/:tripId`. -/
def getTrip (s : Store) (_env : Env) (req : Req) : Store × Response :=
  let userId := principal req
  match s.findReadable req.tripId userId with
  | none => (s, fail 404 "TRIP_NOT_FOUND")
  | some trip => (s, respondDetail (s.detail trip) userId)

/-- The `data` object `updateTrip` builds, applied to a row. -/
def Trip.patch (t : Trip) (req : Req) : Trip :=
  { t with
    title := req.title.getD t.title
    description := match req.description with
      | some d => some d
      | none => t.description
    status := req.status.getD t.status
    startDate := match req.startDate with
      | some d => d
      | none => t.startDate
    endDate := match req.endDate with
      | some d => d
      | none => t.endDate }

/-- The handler `PATCH /trips/:tripId`. -/
def updateTrip (s : Store) (_env : Env) (req : Req) : Store × Response :=
  let userId := principal req
  match s.findEditable req.tripId userId with
  | none => (s, fail 404 "TRIP_NOT_FOUND")
  | some _ =>
    if req.title.isNone && req.description.isNone && req.status.isNone &&
        req.startDate.isNone && req.endDate.isNone then
      (s, fail 400 "NO_FIELDS_TO_UPDATE")
    else
      match updateById Trip.id req.tripId (fun t => t.patch req) s.trips with
      | none => (s, fail 400 "UPDATE_TRIP_FAILED")
      | some (trips, updated) => ({ s with trips := trips }, ⟨200, .trip updated⟩)

/-- The handler `POST /trips/:tripId/checklist`. -/
def addChecklistItem (s : Store) (env : Env) (req : Req) : Store × Response :=
  let userId := principal req
  if !truthy req.label then (s, fail 400 "LABEL_REQUIRED")
  else
    match s.findEditable req.tripId userId with
    | none => (s, fail 404 "TRIP_NOT_FOUND")
    | some _ =>
      let item : CheckItem :=
        { id := env.newId, tripId := req.tripId, label := req.label.getD ""
          done := false, createdAt := env.now }
      match createRow CheckItem.id item s.checklist with
      | none => (s, fail 400 "ADD_CHECKITEM_FAILED")
      | some checklist => ({ s with checklist := checklist }, ⟨201, .item item⟩)

/-- The handler `PATCH /trips/:tripId/checklist/:itemId/toggle`. -/
def toggleCheckItem (s : Store) (_env : Env) (req : Req) : Store × Response :=
  let userId := principal req
  match s.checklist.find? (fun i => i.id == req.itemId) with
  | none => (s, fail 404 "CHECKITEM_NOT_FOUND")
  | some item =>
    if item.tripId != req.tripId then (s, fail 404 "CHECKITEM_NOT_FOUND")
    else
      match s.findEditable req.tripId userId with
      | none => (s, fail 404 "TRIP_NOT_FOUND")
      | some _ =>
        match updateById CheckItem.id req.itemId
            (fun i => { i with done := !item.done }) s.checklist with
        | none => (s, fail 400 "TOGGLE_CHECKITEM_FAILED")
        | some (checklist, updated) =>
          ({ s with checklist := checklist }, ⟨200, .item updated⟩)

/-- The handler `PATCH /trips/:tripId/checklist/:itemId`. -/
def updateCheckItem (s : Store) (_env : Env) (req : Req) : Store × Response :=
  let userId := principal req
  if !truthy req.label then (s, fail 400 "LABEL_REQUIRED")
  else
    match s.findEditable req.tripId userId with
    | none => (s, fail 404 "TRIP_NOT_FOUND")
    | some _ =>
      match s.checklist.find? (fun i => i.id == req.itemId) with
      | none => (s, fail 404 "CHECKITEM_NOT_FOUND")
      | some item =>
        if item.tripId != req.tripId then (s, fail 404 "CHECKITEM_NOT_FOUND")
        else
          match updateById CheckItem.id req.itemId
              (fun i => { i with label := req.label.getD "" }) s.checklist with
          | none => (s, fail 400 "UPDATE_CHECKITEM_FAILED")
          | some (checklist, updated) =>
            ({ s with checklist := checklist }, ⟨200, .item updated⟩)

/-- The handler `DELETE /trips/:tripId/checklist/:itemId`. -/
def deleteCheckItem (s : Store) (_env : Env) (req : Req) : Store × Response :=
  let userId := principal req
  match s.findEditable req.tripId userId with
  | none => (s, fail 404 "TRIP_NOT_FOUND")
  | some _ =>
    match s.checklist.find? (fun i => i.id == req.itemId) with
    | none => (s, fail 404 "CHECKITEM_NOT_FOUND")
    | some item =>
      if item.tripId != req.tripId then (s, fail 404 "CHECKITEM_NOT_FOUND")
      else
        match deleteById CheckItem.id req.itemId s.checklist with
        | none => (s, fail 400 "DELETE_CHECKITEM_FAILED")
        | some checklist => ({ s with checklist := checklist }, ⟨204, .empty⟩)

/-- The handler `POST /trips/:tripId/days`. -/
def addDay (s : Store) (env : Env) (req : Req) : Store × Response :=
  let userId := principal req
  match s.findEditable req.tripId userId with
  | none => (s, fail 404 "TRIP_NOT_FOUND")
  | some _ =>
    let count := (s.days.filter (fun d => d.tripId == req.tripId)).length
    let day : Day :=
      { id := env.newId
        tripId := req.tripId
        title := orNull req.title
        «from» := orNull req.«from»
        «to» := orNull req.«to»
        distanceKm := req.distanceKm
        eta := orNull req.eta
        notes := orNull req.notes.join
        order := (count : Int) + 1 }
    match createRow Day.id day s.days with
    | none => (s, fail 400 "ADD_DAY_FAILED")
    | some days => ({ s with days := days }, ⟨201, .day day⟩)

/-- The handler `PATCH /trips/:tripId/days/:dayId`.  The row is addressed by
`dayId` alone: `prisma.day.update({ where: { id: dayId }, data: { notes } })`. -/
def updateDay (s : Store) (_env : Env) (req : Req) : Store × Response :=
  let userId := principal req
  match s.findEditable req.tripId userId with
  | none => (s, fail 404 "TRIP_NOT_FOUND")
  | some _ =>
    match updateById Day.id req.dayId
        (fun d => match req.notes with
          | some n => { d with notes := n }
          | none => d) s.days with
    | none => (s, fail 400 "UPDATE_DAY_FAILED")
    | some (days, day) => ({ s with days := days }, ⟨200, .day day⟩)

/-- The handler `DELETE /trips/:tripId/days/:dayId`. -/
def deleteDay (s : Store) (_env : Env) (req : Req) : Store × Response :=
  let userId := principal req
  match s.findEditable req.tripId userId with
  | none => (s, fail 404 "TRIP_NOT_FOUND")
  | some _ =>
    match s.days.find? (fun d => d.id == req.dayId && d.tripId == req.tripId) with
    | none => (s, fail 404 "DAY_NOT_FOUND")
    | some _ =>
      match deleteById Day.id req.dayId s.days with
      | none => (s, fail 400 "DELETE_DAY_FAILED")
      | some days => ({ s with days := days }, ⟨204, .empty⟩)

/-- The handler `POST /trips/:tripId/invites`. -/
def createInvite (s : Store) (env : Env) (req : Req) : Store × Response :=
  let userId := principal req
  if !(req.role == some "admin" || req.role == some "viewer") then
    (s, fail 400 "INVALID_ROLE")
  else
    match s.findEditable req.tripId userId with
    | none => (s, fail 404 "TRIP_NOT_FOUND")
    | some _ =>
      let code := env.random
      let maxUses : Option Int := if req.type == some "single" then some 1 else none
      let invite := newAccessCode env.newId req.tripId (req.role.getD "") code maxUses
      match createAccessCode invite s.accessCodes with
      | none => (s, fail 400 "CREATE_INVITE_FAILED")
      | some accessCodes =>
        ({ s with accessCodes := accessCodes },
          ⟨201, .invite invite.code invite.role (if truthy req.type then req.type.getD "" else "link")⟩)

/-- Truthiness of `invite.maxUses`: set and not zero. -/
def AccessCode.capped (c : AccessCode) : Bool :=
  match c.maxUses with
  | some m => m != 0
  | none => false

/-- The test `invite.maxUses && invite.usedCount >= invite.maxUses`. -/
def AccessCode.exhausted (c : AccessCode) : Bool :=
  match c.maxUses with
  | some m => m != 0 && decide (c.usedCount ≥ m)
  | none => false

/-- The test `invite.expiresAt && invite.expiresAt < new Date()`; a `Date`
object is always truthy. -/
def AccessCode.expired (c : AccessCode) (now : Int) : Bool :=
  match c.expiresAt with
  | some e => decide (e < now)
  | none => false

/-- The write `update({ where: { id }, data: { usedCount: { increment: 1 } } })`. -/
def incrementUsed (id : String) (rows : List AccessCode) : Option (List AccessCode × AccessCode) :=
  updateById AccessCode.id id (fun c => { c with usedCount := c.usedCount + 1 }) rows

/-- The handler `POST /trips/join`, run without interruption. -/
def joinTripByCode (s : Store) (env : Env) (req : Req) : Store × Response :=
  let userId := principal req
  if !truthy req.code then (s, fail 400 "CODE_REQUIRED")
  else
    match s.accessCodes.find? (fun c => some c.code == req.code) with
    | none => (s, fail 404 "INVITE_NOT_FOUND")
    | some invite =>
      if invite.exhausted then (s, fail 400 "INVITE_ALREADY_USED")
      else if invite.expired env.now then (s, fail 400 "INVITE_EXPIRED")
      else
        let s1 := { s with members := upsertMember invite.tripId userId invite.role s.members }
        let counted : Option Store :=
          if invite.capped then
            (incrementUsed invite.id s1.accessCodes).map
              (fun r => { s1 with accessCodes := r.1 })
          else some s1
        match counted with
        | none => (s1, fail 400 "JOIN_TRIP_FAILED")
        | some s2 =>
          match s2.trips.find? (fun t => t.id == invite.tripId) with
          | none => (s2, fail 400 "JOIN_TRIP_FAILED")
          | some trip => (s2, respondDetail (s2.detail trip) userId)

/-- The handler `DELETE /trips/:tripId`. -/
def deleteTrip (s : Store) (_env : Env) (req : Req) : Store × Response :=
  let userId := principal req
  match s.findEditable req.tripId userId with
  | none => (s, fail 404 "TRIP_NOT_FOUND")
  | some _ =>
    match s.deleteTripCascade req.tripId with
    | none => (s, fail 500 "INTERNAL_ERROR")
    | some s1 => (s1, ⟨204, .empty⟩)

/-- The handler `exportTripPdf`; the document is the trip it is built from. -/
def exportTripPdf (s : Store) (_env : Env) (req : Req) : Store × Response :=
  let userId := principal req
  match s.findReadable req.tripId userId with
  | none => (s, fail 404 "TRIP_NOT_FOUND")
  | some trip => (s, ⟨200, .pdf (s.detail trip)⟩)

/-- The handlers of `tripController.js`. -/
inductive Handler where
  | listTrips | createTrip | getTrip | updateTrip
  | addChecklistItem | toggleCheckItem | updateCheckItem | deleteCheckItem
  | addDay | updateDay | deleteDay
  | createInvite | joinTripByCode | deleteTrip | exportTripPdf
deriving DecidableEq

/-- The function a handler name stands for. -/
def Handler.run : Handler → Store → Env → Req → Store × Response
  | .listTrips => Portulano.listTrips
  | .createTrip => Portulano.createTrip
  | .getTrip => Portulano.getTrip
  | .updateTrip => Portulano.updateTrip
  | .addChecklistItem => Portulano.addChecklistItem
  | .toggleCheckItem => Portulano.toggleCheckItem
  | .updateCheckItem => Portulano.updateCheckItem
  | .deleteCheckItem => Portulano.deleteCheckItem
  | .addDay => Portulano.addDay
  | .updateDay => Portulano.updateDay
  | .deleteDay => Portulano.deleteDay
  | .createInvite => Portulano.createInvite
  | .joinTripByCode => Portulano.joinTripByCode
  | .deleteTrip => Portulano.deleteTrip
  | .exportTripPdf => Portulano.exportTripPdf

/-! ## `joinTripByCode` between its `await`s -/

/-- Where a running `joinTripByCode` stands: before `findUnique`, before the
checks and the upsert, before the increment, before the final `findFirst`, or
answered. -/
inductive JoinPc where
  | lookup
  | upsert (invite : AccessCode)
  | count (invite : AccessCode)
  | reload (invite : AccessCode)
  | done (r : Response)
deriving DecidableEq

/-- One database round trip of `joinTripByCode` together with the code that
runs before the next `await`. -/
def joinStep (env : Env) (req : Req) (s : Store) : JoinPc → Store × JoinPc
  | .lookup =>
    if !truthy req.code then (s, .done (fail 400 "CODE_REQUIRED"))
    else
      match s.accessCodes.find? (fun c => some c.code == req.code) with
      | none => (s, .done (fail 404 "INVITE_NOT_FOUND"))
      | some invite => (s, .upsert invite)
  | .upsert invite =>
    if invite.exhausted then (s, .done (fail 400 "INVITE_ALREADY_USED"))
    else if invite.expired env.now then (s, .done (fail 400 "INVITE_EXPIRED"))
    else
      let s1 := { s with
        members := upsertMember invite.tripId (principal req) invite.role s.members }
      (s1, if invite.capped then .count invite else .reload invite)
  | .count invite =>
    match incrementUsed invite.id s.accessCodes with
    | none => (s, .done (fail 400 "JOIN_TRIP_FAILED"))
    | some r => ({ s with accessCodes := r.1 }, .reload invite)
  | .reload invite =>
    match s.trips.find? (fun t => t.id == invite.tripId) with
    | none => (s, .done (fail 400 "JOIN_TRIP_FAILED"))
    | some trip => (s, .done (respondDetail (s.detail trip) (principal req)))
  | .done r => (s, .done r)

/-- The response of a call that has answered. -/
def JoinPc.answer : JoinPc → Option Response
  | .done r => some r
  | _ => none

/-- Runs one call for `n` steps. -/
def joinSteps (env : Env) (req : Req) : Nat → Store × JoinPc → Store × JoinPc
  | 0, st => st
  | n + 1, st => joinSteps env req n (joinStep env req st.1 st.2)

/-- Two calls running together: `true` in the schedule lets the first call
take its next step, `false` the second. -/
def interleave (envA envB : Env) (reqA reqB : Req) :
    List Bool → Store × JoinPc × JoinPc → Store × JoinPc × JoinPc
  | [], st => st
  | true :: rest, (s, a, b) =>
    interleave envA envB reqA reqB rest ((joinStep envA reqA s a).1, (joinStep envA reqA s a).2, b)
  | false :: rest, (s, a, b) =>
    interleave envA envB reqA reqB rest ((joinStep envB reqB s b).1, a, (joinStep envB reqB s b).2)

/-! ## `requireAuth` -/

/-- The middleware `requireAuth`.  `words` is `authHeader.split(' ')` (the
header being `''` when absent) and `verify` is `jwt.verify` with the server's
secret: `none` when it throws, else the `sub` of the payload.  The result is
the response that ends the request, or the `req.userId` the handler sees. -/
def requireAuth (verify : String → Option (Option String)) (words : List String) :
    Except Response (Option String) :=
  let scheme := words.head?
  let token := words.tail.head?
  if scheme != some "Bearer" || !truthy token then .error (fail 401 "UNAUTHORIZED")
  else
    match verify (token.getD "") with
    | none => .error (fail 401 "INVALID_TOKEN")
    | some sub => .ok sub

/-- A handler mounted as in `routes/trips.js`: `router.use(requireAuth)` runs
first.  (`routes/trips.js` mounts every handler but `exportTripPdf`.) -/
def route (verify : String → Option (Option String)) (h : Handler)
    (s : Store) (env : Env) (words : List String) (req : Req) : Store × Response :=
  match requireAuth verify words with
  | .error r => (s, r)
  | .ok sub => h.run s env { req with userId := sub }

/-! ## Constraints of the schema -/

/-- The primary key of `trip`: no two rows share an id. -/
def UniqueTripIds (ts : List Trip) : Prop :=
  ts.Pairwise (fun a b => a.id ≠ b.id)

/-- The unique key `tripId_userId` of `tripMember`. -/
def UniqueMemberKeys (ms : List TripMember) : Prop :=
  ms.Pairwise (fun a b => ¬(a.tripId = b.tripId ∧ a.userId = b.userId))

/-- Every stored membership role is one of the two roles of the data model. -/
def ValidRoles (ms : List TripMember) : Prop :=
  ∀ m ∈ ms, m.role = "admin" ∨ m.role = "viewer"

/-- The primary key of `accessCode`: no two rows share an id. -/
def UniqueCodeIds (cs : List AccessCode) : Prop :=
  cs.Pairwise (fun a b => a.id ≠ b.id)

/-- The unique key `code` of `accessCode`. -/
def UniqueCodes (cs : List AccessCode) : Prop :=
  cs.Pairwise (fun a b => a.code ≠ b.code)

/-- The primary key of `checkItem`. -/
def UniqueItemIds (is : List CheckItem) : Prop :=
  is.Pairwise (fun a b => a.id ≠ b.id)

/-- The primary key of `day`. -/
def UniqueDayIds (ds : List Day) : Prop :=
  ds.Pairwise (fun a b => a.id ≠ b.id)

/-- The bound of the data model: a code with `maxUses` set has used at most
that many. -/
def UsesBounded (cs : List AccessCode) : Prop :=
  ∀ c ∈ cs, ∀ m, c.maxUses = some m → c.usedCount ≤ m

instance (ts : List Trip) : Decidable (UniqueTripIds ts) := by
  unfold UniqueTripIds; infer_instance

instance (ms : List TripMember) : Decidable (UniqueMemberKeys ms) := by
  unfold UniqueMemberKeys; infer_instance

instance (ms : List TripMember) : Decidable (ValidRoles ms) := by
  unfold ValidRoles; infer_instance

instance (cs : List AccessCode) : Decidable (UniqueCodeIds cs) := by
  unfold UniqueCodeIds; infer_instance

instance (cs : List AccessCode) : Decidable (UniqueCodes cs) := by
  unfold UniqueCodes; infer_instance

instance (is : List CheckItem) : Decidable (UniqueItemIds is) := by
  unfold UniqueItemIds; infer_instance

instance (ds : List Day) : Decidable (UniqueDayIds ds) := by
  unfold UniqueDayIds; infer_instance

/-! ## Runs and comparisons -/

/-- Sequential execution: the calls of a list run one after the other, each
to completion, on the database the previous one left. -/
def runAll : List (Handler × Env × Req) → Store → Store
  | [], s => s
  | (h, env, req) :: rest, s => runAll rest (h.run s env req).1

/-- A code after some calls: the same row but for its count, which has not
gone down. -/
def CodeGrew (c c2 : AccessCode) : Prop :=
  c2 = { c with usedCount := c2.usedCount } ∧ c.usedCount ≤ c2.usedCount

/-- The rows that do not belong to the trip `tripId` are the same in the two
databases. -/
def SameOutside (tripId : String) (s s2 : Store) : Prop :=
  (∀ t : Trip, t.id ≠ tripId → (t ∈ s2.trips ↔ t ∈ s.trips)) ∧
  (∀ m : TripMember, m.tripId ≠ tripId → (m ∈ s2.members ↔ m ∈ s.members)) ∧
  (∀ c : AccessCode, c.tripId ≠ tripId → (c ∈ s2.accessCodes ↔ c ∈ s.accessCodes)) ∧
  (∀ i : CheckItem, i.tripId ≠ tripId → (i ∈ s2.checklist ↔ i ∈ s.checklist)) ∧
  (∀ d : Day, d.tripId ≠ tripId → (d ∈ s2.days ↔ d ∈ s.days))

/-- The handlers that change a trip, its days, its checklist or its codes and
take the trip from the route. -/
def Handler.mutating : Handler → Bool
  | .updateTrip | .deleteTrip | .addDay | .updateDay | .deleteDay
  | .addChecklistItem | .toggleCheckItem | .updateCheckItem | .deleteCheckItem
  | .createInvite => true
  | _ => false

/-- The handlers that read a trip in full. -/
def Handler.reading : Handler → Bool
  | .getTrip | .exportTripPdf => true
  | _ => false

/-- The request `req` as sent by `userId` (`none`: no principal id). -/
def Req.sentBy (req : Req) (userId : Option String) : Req :=
  { req with userId := userId }

/-- The request `req` with `:tripId` set. -/
def Req.onTrip (req : Req) (tripId : String) : Req :=
  { req with tripId := tripId }

/-- The row `c` with its count set to `n`. -/
def AccessCode.withUsed (c : AccessCode) (n : Int) : AccessCode :=
  { c with usedCount := n }

/-- The row `d` with its notes set. -/
def Day.withNotes (d : Day) (notes : Option String) : Day :=
  { d with notes := notes }

/-! ## Sample data -/

/-- A trip of `alice`. -/
def lisboa : Trip :=
  { id := "t1", title := "Lisboa", description := none, status := "ideia"
    startDate := none, endDate := none, createdById := "alice", createdAt := 10 }

/-- A single-use viewer code for `lisboa`, not yet used. -/
def freshCode : AccessCode :=
  { id := "c1", tripId := "t1", role := "viewer", code := "ab12cd34"
    maxUses := some 1, usedCount := 0, expiresAt := none }

/-- A single-use code for `lisboa` that has been used and whose expiry
(time 5) has also passed by time 10. -/
def spentCode : AccessCode :=
  { id := "c2", tripId := "t1", role := "viewer", code := "zz99zz99"
    maxUses := some 1, usedCount := 1, expiresAt := some 5 }

/-- An unlimited code for `lisboa` whose expiry (time 5) has passed by time 10. -/
def staleCode : AccessCode :=
  { id := "c3", tripId := "t1", role := "admin", code := "old00old"
    maxUses := none, usedCount := 0, expiresAt := some 5 }

/-- A database: `alice` owns `lisboa` and also has a viewer row on it, `bob`
is a viewer. -/
def sampleStore : Store :=
  { trips := [lisboa]
    members := [⟨"t1", "bob", "viewer"⟩, ⟨"t1", "alice", "viewer"⟩]
    accessCodes := [freshCode, spentCode, staleCode]
    checklist := []
    days := [] }

/-- A run-time environment at time 10. -/
def sampleEnv : Env := { now := 10, newId := "n1", random := "r4nd0m00" }

/-- A session on an empty database: `alice` creates a trip and a single-use
viewer code for it, `bob` redeems the code, then `carol` tries to. -/
def sampleCalls : List (Handler × Env × Req) :=
  [ (.createTrip, { now := 1, newId := "t1", random := "" },
      { userId := some "alice", title := some "Lisboa" }),
    (.createInvite, { now := 2, newId := "c1", random := "ab12cd34" },
      { userId := some "alice", tripId := "t1", role := some "viewer", type := some "single" }),
    (.joinTripByCode, { now := 3, newId := "", random := "" },
      { userId := some "bob", code := some "ab12cd34" }),
    (.joinTripByCode, { now := 4, newId := "", random := "" },
      { userId := some "carol", code := some "ab12cd34" }) ]

/-- An unlimited admin code for `lisboa`, without expiry. -/
def openCode : AccessCode :=
  { id := "c4", tripId := "t1", role := "admin", code := "open0000"
    maxUses := none, usedCount := 0, expiresAt := none }

/-- The sample database with `openCode` as its only code. -/
def openStore : Store := { sampleStore with accessCodes := [openCode] }

/-- A database for the race: `lisboa`, no member, and the unused single-use
code `freshCode`. -/
def raceStore : Store :=
  { trips := [lisboa], members := [], accessCodes := [freshCode], checklist := [], days := [] }

/-- The request of `bob` redeeming `freshCode`. -/
def bobJoins : Req := { userId := some "bob", code := some "ab12cd34" }

/-- The request of `carol` redeeming `freshCode`. -/
def carolJoins : Req := { userId := some "carol", code := some "ab12cd34" }

/-- The schedule in which the first call runs to its end before the second
starts. -/
def oneAfterTheOther : List Bool := [true, true, true, true, false, false, false, false]

/-- The schedule in which both calls look the code up before either goes on. -/
def bothLookFirst : List Bool := [true, false, true, true, true, false, false, false]

/-- A trip of `bob`. -/
def porto : Trip :=
  { id := "t2", title := "Porto", description := none, status := "ideia"
    startDate := none, endDate := none, createdById := "bob", createdAt := 20 }

/-- A day of `porto`. -/
def portoDay : Day :=
  { id := "d1", tripId := "t2", title := some "Ribeira", «from» := none, «to» := none
    distanceKm := none, eta := none, notes := some "private", order := 1 }

/-- A checklist item of `lisboa`. -/
def lisboaItem : CheckItem :=
  { id := "i1", tripId := "t1", label := "passports", done := false, createdAt := 11 }

/-- A database with two trips of two owners, a day of `porto` and an item of
`lisboa`; nobody is a member of anything. -/
def tourStore : Store :=
  { trips := [lisboa, porto], members := [], accessCodes := [], checklist := [lisboaItem]
    days := [portoDay] }

/-- The same database had `lisboa` never existed. -/
def tourStoreWithoutLisboa : Store :=
  { trips := [porto], members := [], accessCodes := [], checklist := [], days := [portoDay] }

/-- The request of `alice`, who has no role on `porto`, to rewrite the notes
of `portoDay` through the route of her own trip `lisboa`. -/
def aliceRewritesPortoDay : Req :=
  { userId := some "alice", tripId := "t1", dayId := "d1", notes := some (some "rewritten") }

/-- The request of `eve`, who has no role on `lisboa`, to toggle `lisboaItem`. -/
def eveToggles : Req := { userId := some "eve", tripId := "t1", itemId := "i1" }

/-- A trip owned by the principal `"1"`. -/
def rootTrip : Trip :=
  { id := "t0", title := "Default", description := none, status := "ideia"
    startDate := none, endDate := none, createdById := "1", createdAt := 0 }

/-- A database holding only `rootTrip`. -/
def rootStore : Store :=
  { trips := [rootTrip], members := [], accessCodes := [], checklist := [], days := [] }

/-- The request of `alice` to read `lisboa`. -/
def aliceReads : Req := { userId := some "alice", tripId := "t1" }

/-- The request of `carol` redeeming `spentCode`. -/
def carolJoinsSpent : Req := { userId := some "carol", code := some "zz99zz99" }

/-- The request of `carol` redeeming `staleCode`. -/
def carolJoinsStale : Req := { userId := some "carol", code := some "old00old" }

/-- The request of `bob` redeeming `openCode`. -/
def bobJoinsOpen : Req := { userId := some "bob", code := some "open0000" }

/-- The two calls of the race, one after the other. -/
def calmRun : Store × JoinPc × JoinPc :=
  interleave sampleEnv sampleEnv bobJoins carolJoins oneAfterTheOther
    (raceStore, .lookup, .lookup)

/-- The two calls of the race, both looking the code up first. -/
def raceRun : Store × JoinPc × JoinPc :=
  interleave sampleEnv sampleEnv bobJoins carolJoins bothLookFirst
    (raceStore, .lookup, .lookup)

/-- The database `tourStore` with the notes of `portoDay` rewritten. -/
def tourStoreRewritten : Store :=
  { tourStore with days := [portoDay.withNotes (some "rewritten")] }

/-- The request of `alice` to delete her trip `lisboa`. -/
def aliceDeletesLisboa : Req := { userId := some "alice", tripId := "t1" }

/-- The request of `eve` to relabel `lisboaItem`. -/
def eveRelabels : Req := { eveToggles with label := some "x" }

/-- A request without principal id for `rootTrip`. -/
def nobodyAsksRoot : Req := { userId := none, tripId := "t0" }

/-- The values the run time supplies to the sample `createInvite` calls. -/
def inviteEnv : Env := { now := 30, newId := "c9", random := "fresh123" }

/-- The request of `alice` for a single-use viewer code on `lisboa`. -/
def aliceInvitesSingle : Req :=
  { userId := some "alice", tripId := "t1", role := some "viewer", type := some "single" }

/-- The request of `alice` for a code on `lisboa` with a role that does not
exist. -/
def aliceInvitesEditor : Req :=
  { userId := some "alice", tripId := "t1", role := some "editor", type := some "single" }

/-- A session on an empty database: `alice` creates a trip and a single-use
viewer code for it, then redeems the code herself. -/
def ownerSession : List (Handler × Env × Req) :=
  [ (.createTrip, { now := 1, newId := "t1", random := "" },
      { userId := some "alice", title := some "Lisboa" }),
    (.createInvite, { now := 2, newId := "c1", random := "ab12cd34" },
      { userId := some "alice", tripId := "t1", role := some "viewer", type := some "single" }),
    (.joinTripByCode, { now := 3, newId := "", random := "" },
      { userId := some "alice", code := some "ab12cd34" }) ]

/-- The membership row `alice` gets on her own trip in `ownerSession`. -/
def ownerRow : TripMember := { tripId := "t1", userId := "alice", role := "viewer" }

/-- The request of `alice`, the owner of `lisboa`, redeeming `freshCode`. -/
def aliceJoins : Req := { userId := some "alice", code := some "ab12cd34" }

/-- Calls made after a redemption: the owner deletes the trip, then `bob`
tries the code again. -/
def laterCalls : List (Handler × Env × Req) :=
  [ (.deleteTrip, sampleEnv, aliceDeletesLisboa), (.joinTripByCode, sampleEnv, bobJoins) ]

/-! ## Lemmas on the queries -/

theorem uniqueTripIds_eq {ts : List Trip} (h : UniqueTripIds ts) {a b : Trip}
    (ha : a ∈ ts) (hb : b ∈ ts) (hid : a.id = b.id) : a = b := by
  by_contra hne
  exact List.Pairwise.forall (fun _ _ hxy => fun e => hxy e.symm) h ha hb hne hid

theorem uniqueMemberKeys_eq {ms : List TripMember} (h : UniqueMemberKeys ms) {a b : TripMember}
    (ha : a ∈ ms) (hb : b ∈ ms) (ht : a.tripId = b.tripId) (hu : a.userId = b.userId) :
    a = b := by
  by_contra hne
  exact List.Pairwise.forall (fun _ _ hxy => fun e => hxy ⟨e.1.symm, e.2.symm⟩) h ha hb hne
    ⟨ht, hu⟩

theorem readableBy_iff (s : Store) (P : String) (T : Trip) :
    s.readableBy P T = true ↔
      T.createdById = P ∨ ∃ m ∈ s.members, m.tripId = T.id ∧ m.userId = P := by
  simp [Store.readableBy]

theorem editableBy_iff (s : Store) (P : String) (T : Trip) :
    s.editableBy P T = true ↔
      T.createdById = P ∨
        ∃ m ∈ s.members, m.tripId = T.id ∧ m.userId = P ∧ m.role = "admin" := by
  simp [Store.editableBy, and_assoc]

theorem findReadable_eq (s : Store) (T : Trip) (P : String)
    (hT : T ∈ s.trips) (hids : UniqueTripIds s.trips) :
    s.findReadable T.id P = if s.readableBy P T then some T else none := by
  unfold Store.findReadable
  split
  · rename_i hr
    cases hf : s.trips.find? (fun t => t.id == T.id && s.readableBy P t) with
    | none =>
      rw [List.find?_eq_none] at hf
      have := hf T hT
      simp [hr] at this
    | some t =>
      have h1 := List.find?_some hf
      have h2 := List.mem_of_find?_eq_some hf
      simp at h1
      rw [uniqueTripIds_eq hids h2 hT h1.1]
  · rename_i hr
    rw [List.find?_eq_none]
    intro t ht hp
    simp at hp
    rw [uniqueTripIds_eq hids ht hT hp.1] at hp
    exact hr hp.2

theorem roleExpr_detail (s : Store) (T : Trip) (P : String)
    (hkey : UniqueMemberKeys s.members) (hroles : ValidRoles s.members)
    (hread : s.readableBy P T = true) :
    (roleExpr (s.detail T) P = "admin" ↔
        P = T.createdById ∨ (⟨T.id, P, "admin"⟩ : TripMember) ∈ s.members) ∧
    (roleExpr (s.detail T) P = "viewer" ↔
        P ≠ T.createdById ∧ (⟨T.id, P, "viewer"⟩ : TripMember) ∈ s.members) := by
  unfold roleExpr
  by_cases ho : T.createdById = P
  · simp [Store.detail, ho]
  · have ho2 : ¬ P = T.createdById := fun e => ho e.symm
    rw [readableBy_iff] at hread
    rcases hread with h | ⟨m, hm, hmt, hmu⟩
    · exact absurd h ho
    · cases hf : (s.detail T).members.find? (fun m => m.userId == P) with
      | none =>
        rw [List.find?_eq_none] at hf
        have := hf m (by simp [Store.detail, hm, hmt])
        simp [hmu] at this
      | some m2 =>
        have h1 := List.find?_some hf
        have h2 := List.mem_of_find?_eq_some hf
        simp [Store.detail] at h1 h2
        have hm2 : m2 = ⟨T.id, P, m2.role⟩ := by
          cases m2; simp_all
        have hne : m2.role ≠ "" := by
          rcases hroles m2 h2.1 with h | h <;> rw [h] <;> decide
        simp only [Store.detail, beq_iff_eq, ho, if_false, hne, ne_eq, not_false_eq_true,
          if_true, ho2, false_or, true_and]
        constructor
        · constructor
          · intro h; rw [← h, ← hm2]; exact h2.1
          · intro h
            have := uniqueMemberKeys_eq hkey h h2.1 h2.2.symm h1.symm
            rw [← this]
        · constructor
          · intro h; rw [← h, ← hm2]; exact h2.1
          · intro h
            have := uniqueMemberKeys_eq hkey h h2.1 h2.2.symm h1.symm
            rw [← this]

/-! ## The answer of a redemption -/

theorem upsertMember_mem (tripId userId role : String) (rows : List TripMember) :
    ∃ m ∈ upsertMember tripId userId role rows,
      m.tripId = tripId ∧ m.userId = userId ∧ m.role = role := by
  unfold upsertMember
  split
  · rename_i h
    simp only [List.any_eq_true, Bool.and_eq_true, beq_iff_eq] at h
    obtain ⟨m, hm, ht, hu⟩ := h
    refine ⟨{ m with role := role }, ?_, ht, hu, rfl⟩
    rw [List.mem_map]
    exact ⟨m, hm, by simp [ht, hu]⟩
  · exact ⟨⟨tripId, userId, role⟩, by simp, rfl, rfl, rfl⟩

/-- What a `joinTripByCode` call that answers 200 went through. -/
theorem joinTripByCode_ok (s : Store) (env : Env) (req : Req) (s2 : Store) (r : Response)
    (h : joinTripByCode s env req = (s2, r)) (hok : r.status = 200) :
    ∃ invite trip,
      truthy req.code = true ∧
      s.accessCodes.find? (fun c => some c.code == req.code) = some invite ∧
      invite.exhausted = false ∧ invite.expired env.now = false ∧
      s2.trips = s.trips ∧ s2.checklist = s.checklist ∧ s2.days = s.days ∧
      s2.members = upsertMember invite.tripId (principal req) invite.role s.members ∧
      (if invite.capped then
          (incrementUsed invite.id s.accessCodes).map Prod.fst = some s2.accessCodes
        else s2.accessCodes = s.accessCodes) ∧
      s2.trips.find? (fun t => t.id == invite.tripId) = some trip ∧
      r = respondDetail (s2.detail trip) (principal req) := by
  unfold joinTripByCode at h
  by_cases hc : truthy req.code = true
  swap
  · simp [hc] at h; rw [← h.2] at hok; simp [fail] at hok
  simp only [hc, Bool.not_true, Bool.false_eq_true, if_false] at h
  cases hf : s.accessCodes.find? (fun c => some c.code == req.code) with
  | none => simp [hf] at h; rw [← h.2] at hok; simp [fail] at hok
  | some invite =>
    simp only [hf] at h
    by_cases hex : invite.exhausted = true
    · simp [hex] at h; rw [← h.2] at hok; simp [fail] at hok
    by_cases hxp : invite.expired env.now = true
    · simp [hex, hxp] at h; rw [← h.2] at hok; simp [fail] at hok
    simp only [hex, hxp, Bool.false_eq_true, if_false] at h
    by_cases hcap : invite.capped = true
    · simp only [hcap, if_true] at h
      cases hi : incrementUsed invite.id s.accessCodes with
      | none => simp [hi] at h; rw [← h.2] at hok; simp [fail] at hok
      | some p =>
        simp only [hi, Option.map_some'] at h
        cases ht : s.trips.find? (fun t => t.id == invite.tripId) with
        | none => simp [ht] at h; rw [← h.2] at hok; simp [fail] at hok
        | some trip =>
          simp only [ht] at h
          obtain ⟨h1, h2⟩ := Prod.mk.inj h
          subst h1
          exact ⟨invite, trip, hc, rfl, by simpa using hex, by simpa using hxp, rfl, rfl, rfl,
            rfl, by simp [hcap, hi], ht, h2.symm⟩
    · simp only [hcap, Bool.false_eq_true, if_false] at h
      cases ht : s.trips.find? (fun t => t.id == invite.tripId) with
      | none => simp [ht] at h; rw [← h.2] at hok; simp [fail] at hok
      | some trip =>
        simp only [ht] at h
        obtain ⟨h1, h2⟩ := Prod.mk.inj h
        subst h1
        exact ⟨invite, trip, hc, rfl, by simpa using hex, by simpa using hxp, rfl, rfl, rfl,
          rfl, by simp [hcap], ht, h2.symm⟩

/-- A `joinTripByCode` call that answers 200 answers what `getTrip` answers the
same principal for the code's trip in the resulting database. -/
theorem joinTripByCode_answer (s : Store) (env : Env) (req : Req) (s2 : Store) (r : Response)
    (h : joinTripByCode s env req = (s2, r)) (hok : r.status = 200) :
    ∃ invite, s.accessCodes.find? (fun c => some c.code == req.code) = some invite ∧
      r = (getTrip s2 env (req.onTrip invite.tripId)).2 := by
  obtain ⟨invite, trip, -, hf, -, -, -, -, -, hm, -, ht, hr⟩ := joinTripByCode_ok s env req s2 r h hok
  refine ⟨invite, hf, ?_⟩
  obtain ⟨m, hm1, hm2, hm3, -⟩ := upsertMember_mem invite.tripId (principal req) invite.role s.members
  rw [← hm] at hm1
  have hfun : (fun t : Trip => t.id == invite.tripId && s2.readableBy (principal req) t) =
      (fun t : Trip => t.id == invite.tripId) := by
    funext t
    by_cases e : t.id = invite.tripId
    · have : s2.readableBy (principal req) t = true := by
        rw [readableBy_iff]; exact Or.inr ⟨m, hm1, by rw [hm2, e], hm3⟩
      simp [e, this]
    · simp [e]
  simp only [getTrip, Store.findReadable, principal, Req.onTrip] at *
  rw [hfun, ht]
  exact hr

/-! ## Effective role (C1) -/

/-- On its own the role expression has no "none": for a principal that is
neither the owner nor in `trip.members` it yields `viewer`.  `getTrip` never
evaluates it there, because its `findFirst` has already answered 404. -/
theorem roleExpr_default (trip : TripDetail) (P : String)
    (ho : trip.trip.createdById ≠ P) (hm : ∀ m ∈ trip.members, m.userId ≠ P) :
    roleExpr trip P = "viewer" := by
  have hf : trip.members.find? (fun m => m.userId == P) = none := by
    rw [List.find?_eq_none]
    intro m hmem
    simpa using hm m hmem
  simp [roleExpr, ho, hf]

theorem readableBy_roles (s : Store) (T : Trip) (P : String) (hroles : ValidRoles s.members) :
    s.readableBy P T = true ↔
      (P = T.createdById ∨ (⟨T.id, P, "admin"⟩ : TripMember) ∈ s.members) ∨
      (P ≠ T.createdById ∧ (⟨T.id, P, "viewer"⟩ : TripMember) ∈ s.members) := by
  rw [readableBy_iff]
  constructor
  · rintro (h | ⟨m, hm, ht, hu⟩)
    · exact Or.inl (Or.inl h.symm)
    · have hm2 : m = ⟨T.id, P, m.role⟩ := by cases m; simp_all
      by_cases ho : P = T.createdById
      · exact Or.inl (Or.inl ho)
      · rcases hroles m hm with h | h
        · rw [h] at hm2; rw [hm2] at hm; exact Or.inl (Or.inr hm)
        · rw [h] at hm2; rw [hm2] at hm; exact Or.inr ⟨ho, hm⟩
  · rintro ((h | h) | ⟨-, h⟩)
    · exact Or.inl h.symm
    · exact Or.inr ⟨_, h, rfl, rfl⟩
    · exact Or.inr ⟨_, h, rfl, rfl⟩

/-- C1: for a principal `P` and a trip `T` of the database, under the keys of
the schema (one trip per id, one membership row per trip and user) and with
every stored role one of `admin` and `viewer`, the role `getTrip` answers is
`admin` exactly when `P` owns `T` or has an `admin` row, `viewer` exactly when
`P` is not the owner and has a `viewer` row, and in every other case the answer
is 404 `TRIP_NOT_FOUND` and carries no role; `joinTripByCode`, when it succeeds,
answers what `getTrip` answers in the resulting database. -/
theorem effective_role_resolution (s : Store) (env : Env) (req : Req) (T : Trip) (P : String)
    (hT : T ∈ s.trips) (hids : UniqueTripIds s.trips)
    (hkey : UniqueMemberKeys s.members) (hroles : ValidRoles s.members) :
    ((getTrip s env ((req.sentBy (some P)).onTrip T.id)).2.currentRole = some "admin" ↔
      P = T.createdById ∨ (⟨T.id, P, "admin"⟩ : TripMember) ∈ s.members) ∧
    ((getTrip s env ((req.sentBy (some P)).onTrip T.id)).2.currentRole = some "viewer" ↔
      P ≠ T.createdById ∧ (⟨T.id, P, "viewer"⟩ : TripMember) ∈ s.members) ∧
    ((getTrip s env ((req.sentBy (some P)).onTrip T.id)).2 = fail 404 "TRIP_NOT_FOUND" ∧
        (getTrip s env ((req.sentBy (some P)).onTrip T.id)).2.currentRole = none ↔
      ¬ (P = T.createdById ∨ (⟨T.id, P, "admin"⟩ : TripMember) ∈ s.members) ∧
      ¬ (P ≠ T.createdById ∧ (⟨T.id, P, "viewer"⟩ : TripMember) ∈ s.members)) ∧
    (∀ jreq s2 r2, joinTripByCode s env jreq = (s2, r2) → r2.status = 200 →
      ∃ invite, s.accessCodes.find? (fun c => some c.code == jreq.code) = some invite ∧
        r2 = (getTrip s2 env (jreq.onTrip invite.tripId)).2) := by
  generalize hrdef : (getTrip s env ((req.sentBy (some P)).onTrip T.id)).2 = r
  have hrdef2 : r = (getTrip s env { req with userId := some P, tripId := T.id }).2 :=
    hrdef.symm
  clear hrdef
  have hsplit := readableBy_roles s T P hroles
  by_cases hread : s.readableBy P T = true
  · have hr : r = respondDetail (s.detail T) P := by
      rw [hrdef2]
      simp only [getTrip, principal, Option.getD_some]
      rw [findReadable_eq s T P hT hids]
      simp [hread]
    have hl := roleExpr_detail s T P hkey hroles hread
    refine ⟨?_, ?_, ?_, fun jreq s2 r2 h hok => joinTripByCode_answer s env jreq s2 r2 h hok⟩
    · simp only [hr, respondDetail, Response.currentRole, Option.some.injEq]
      exact hl.1
    · simp only [hr, respondDetail, Response.currentRole, Option.some.injEq]
      exact hl.2
    · constructor
      · rintro ⟨-, h⟩
        simp [hr, respondDetail, Response.currentRole] at h
      · rintro ⟨h1, h2⟩
        rcases hsplit.mp hread with h | h
        · exact absurd h h1
        · exact absurd h h2
  · have hr : r = fail 404 "TRIP_NOT_FOUND" := by
      rw [hrdef2]
      simp only [getTrip, principal, Option.getD_some]
      rw [findReadable_eq s T P hT hids]
      simp [hread]
    have hno : ¬ (P = T.createdById ∨ (⟨T.id, P, "admin"⟩ : TripMember) ∈ s.members) ∧
        ¬ (P ≠ T.createdById ∧ (⟨T.id, P, "viewer"⟩ : TripMember) ∈ s.members) := by
      constructor
      · intro h; exact hread (hsplit.mpr (Or.inl h))
      · intro h; exact hread (hsplit.mpr (Or.inr h))
    refine ⟨?_, ?_, ?_, fun jreq s2 r2 h hok => joinTripByCode_answer s env jreq s2 r2 h hok⟩
    · simp only [hr, fail, Response.currentRole]
      constructor
      · intro h; simp at h
      · intro h; exact absurd h hno.1
    · simp only [hr, fail, Response.currentRole]
      constructor
      · intro h; simp at h
      · intro h; exact absurd h hno.2
    · constructor
      · intro _; exact hno
      · intro _; exact ⟨hr, by simp [hr, fail, Response.currentRole]⟩

/-- Witness of C1: the owner `alice`, who also has a viewer row, is answered
`admin`. -/
theorem effective_role_resolution_witness :
    (getTrip sampleStore sampleEnv aliceReads).2.currentRole = some "admin" :=
  (effective_role_resolution sampleStore sampleEnv aliceReads lisboa "alice"
    (by decide) (by decide) (by decide) (by decide)).1.mpr (Or.inl rfl)

/-! ## Refused codes (C2, C3) -/

theorem find_code_eq {cs : List AccessCode} {invite : AccessCode} {code : Option String}
    (hmem : invite ∈ cs) (huniq : UniqueCodes cs) (hcode : code = some invite.code) :
    cs.find? (fun c => some c.code == code) = some invite := by
  subst hcode
  cases hf : cs.find? (fun c => some c.code == some invite.code) with
  | none =>
    rw [List.find?_eq_none] at hf
    have := hf invite hmem
    simp at this
  | some c =>
    have h1 := List.find?_some hf
    have h2 := List.mem_of_find?_eq_some hf
    simp at h1
    by_contra hne
    have hne2 : c ≠ invite := fun e => hne (by rw [e])
    exact List.Pairwise.forall (fun _ _ hxy => fun e => hxy e.symm) huniq h2 hmem hne2 h1

/-- C2: for an invite code of the database whose `maxUses` is set (to a value
other than 0, the only value the data model excludes) and whose `usedCount`
has reached it, a `joinTripByCode` request carrying that code, by any
principal and at any time, is answered 400 `INVITE_ALREADY_USED` and leaves
the whole database, `usedCount` and membership rows included, as it was. -/
theorem exhausted_code_rejected (s : Store) (env : Env) (req : Req) (invite : AccessCode)
    (m : Int) (hmem : invite ∈ s.accessCodes) (huniq : UniqueCodes s.accessCodes)
    (hreq : req.code = some invite.code) (hne : invite.code ≠ "")
    (hmax : invite.maxUses = some m) (hm : m ≠ 0) (hused : invite.usedCount ≥ m) :
    joinTripByCode s env req = (s, fail 400 "INVITE_ALREADY_USED") := by
  have hex : invite.exhausted = true := by simp [AccessCode.exhausted, hmax, hm, hused]
  have ht : truthy req.code = true := by simp [truthy, hreq, hne]
  simp [joinTripByCode, ht, find_code_eq hmem huniq hreq, hex]

/-- Witness of C2: `spentCode` (one use allowed, one made) is refused. -/
theorem exhausted_code_rejected_witness :
    joinTripByCode sampleStore sampleEnv carolJoinsSpent
      = (sampleStore, fail 400 "INVITE_ALREADY_USED") :=
  exhausted_code_rejected sampleStore sampleEnv carolJoinsSpent spentCode 1
    (by decide) (by decide) rfl (by decide) rfl (by decide) (by decide)

/-- Counterexample to C3 as stated: `spentCode` expired at time 5 and the
request comes at time 10, yet the answer is `INVITE_ALREADY_USED`, not
`INVITE_EXPIRED`, because its single use is also spent. -/
theorem expired_code_counterexample :
    spentCode ∈ sampleStore.accessCodes ∧ spentCode.expiresAt = some 5 ∧ 5 < sampleEnv.now ∧
    carolJoinsSpent.code = some spentCode.code ∧
    (joinTripByCode sampleStore sampleEnv carolJoinsSpent).2
      = fail 400 "INVITE_ALREADY_USED" ∧
    (joinTripByCode sampleStore sampleEnv carolJoinsSpent).2
      ≠ fail 400 "INVITE_EXPIRED" := by
  decide

/-- C3, amended: for an invite code of the database whose `expiresAt` lies
before the time of the request, a `joinTripByCode` request carrying that code
changes nothing in the database and is answered 400 `INVITE_EXPIRED` when the
code is not exhausted (`maxUses` unset or 0, or `usedCount` below it), and 400
`INVITE_ALREADY_USED` when it is: the exhaustion test runs first. -/
theorem expired_code_rejected (s : Store) (env : Env) (req : Req) (invite : AccessCode)
    (e : Int) (hmem : invite ∈ s.accessCodes) (huniq : UniqueCodes s.accessCodes)
    (hreq : req.code = some invite.code) (hne : invite.code ≠ "")
    (hexp : invite.expiresAt = some e) (hpast : e < env.now) :
    (invite.exhausted = false →
      joinTripByCode s env req = (s, fail 400 "INVITE_EXPIRED")) ∧
    (invite.exhausted = true →
      joinTripByCode s env req = (s, fail 400 "INVITE_ALREADY_USED")) := by
  have hx : invite.expired env.now = true := by simp [AccessCode.expired, hexp, hpast]
  have ht : truthy req.code = true := by simp [truthy, hreq, hne]
  constructor
  · intro hex
    simp [joinTripByCode, ht, find_code_eq hmem huniq hreq, hex, hx]
  · intro hex
    simp [joinTripByCode, ht, find_code_eq hmem huniq hreq, hex]

/-- Witness of C3, amended: `staleCode`, unlimited and expired, is refused as
expired. -/
theorem expired_code_rejected_witness :
    joinTripByCode sampleStore sampleEnv carolJoinsStale
      = (sampleStore, fail 400 "INVITE_EXPIRED") :=
  (expired_code_rejected sampleStore sampleEnv carolJoinsStale staleCode 5
    (by decide) (by decide) rfl (by decide) rfl (by decide)).1 (by decide)

/-! ## Counting uses (C5) -/

theorem updateById_unique {cs : List AccessCode} (hids : UniqueCodeIds cs) {invite : AccessCode}
    (hmem : invite ∈ cs) (f : AccessCode → AccessCode) :
    updateById AccessCode.id invite.id f cs =
      some (cs.map (fun c => if c = invite then f c else c), f invite) := by
  have hfun : ∀ c ∈ cs, (c.id == invite.id) = decide (c = invite) := by
    intro c hc
    by_cases e : c = invite
    · simp [e]
    · have : c.id ≠ invite.id :=
        List.Pairwise.forall (fun _ _ hxy => fun e => hxy e.symm) hids hc hmem e
      simp [e, this]
  unfold updateById
  cases hf : cs.find? (fun r => r.id == invite.id) with
  | none =>
    rw [List.find?_eq_none] at hf
    have := hf invite hmem
    simp at this
  | some c =>
    have h1 := List.find?_some hf
    have h2 := List.mem_of_find?_eq_some hf
    rw [hfun c h2] at h1
    simp only [decide_eq_true_eq] at h1
    subst h1
    simp only [Option.some.injEq, Prod.mk.injEq, and_true]
    apply List.map_congr_left
    intro x hx
    rw [hfun x hx]
    by_cases e : x = c <;> simp [e]

/-- C5: for an invite code of the database (codes and ids being unique keys),
a `joinTripByCode` call carrying it that answers 200 adds exactly 1 to the
`usedCount` of that code when its `maxUses` is set (and not 0, which the data
model excludes), touching no other field and no other code, and leaves the
whole `accessCode` table as it was when `maxUses` is unset. -/
theorem redemption_counts_use (s : Store) (env : Env) (req : Req) (invite : AccessCode)
    (s2 : Store) (r : Response)
    (hmem : invite ∈ s.accessCodes) (huniq : UniqueCodes s.accessCodes)
    (hids : UniqueCodeIds s.accessCodes) (hreq : req.code = some invite.code)
    (h : joinTripByCode s env req = (s2, r)) (hok : r.status = 200) :
    (∀ m, invite.maxUses = some m → m ≠ 0 →
      s2.accessCodes = s.accessCodes.map (fun c =>
        if c = invite then c.withUsed (c.usedCount + 1) else c)) ∧
    (invite.maxUses = none → s2.accessCodes = s.accessCodes) := by
  obtain ⟨inv, trip, -, hf, -, -, -, -, -, -, hc, -, -⟩ := joinTripByCode_ok s env req s2 r h hok
  rw [find_code_eq hmem huniq hreq] at hf
  cases hf
  constructor
  · intro m hm hm0
    have hcap : invite.capped = true := by simp [AccessCode.capped, hm, hm0]
    simp only [hcap, if_true, incrementUsed] at hc
    rw [updateById_unique hids hmem] at hc
    simpa using hc.symm
  · intro hm
    have hcap : invite.capped = false := by simp [AccessCode.capped, hm]
    simpa [hcap] using hc

/-- Witness of C5: `carol` redeems `freshCode`; its count goes from 0 to 1 and
the other two codes stay as they were. -/
theorem redemption_counts_use_witness :
    (joinTripByCode sampleStore sampleEnv carolJoins).1.accessCodes
      = [freshCode.withUsed 1, spentCode, staleCode] :=
  ((redemption_counts_use sampleStore sampleEnv carolJoins freshCode
    (joinTripByCode sampleStore sampleEnv carolJoins).1
    (joinTripByCode sampleStore sampleEnv carolJoins).2
    (by decide) (by decide) (by decide) rfl rfl (by decide)).1 1 rfl (by decide)).trans
    (by decide)

/-! ## The bound on uses (C6) -/

theorem deleteTripCascade_eq (s s2 : Store) (tripId : String)
    (h : s.deleteTripCascade tripId = some s2) :
    s2.accessCodes = s.accessCodes ∧
    s2.members = s.members.filter (fun m => !(m.tripId == tripId)) ∧
    s2.checklist = s.checklist.filter (fun i => !(i.tripId == tripId)) ∧
    s2.days = s.days.filter (fun d => !(d.tripId == tripId)) ∧
    s2.trips = s.trips.filter (fun t => !(t.id == tripId)) := by
  unfold Store.deleteTripCascade deleteById at h
  split at h
  · exact absurd h (by simp)
  · rename_i trips ht
    split at ht
    · simp only [Option.some.injEq] at ht h
      subst ht; subst h
      exact ⟨rfl, rfl, rfl, rfl, rfl⟩
    · exact absurd ht (by simp)

/-- What a handler can do to the `accessCode` table: nothing, add one code
with `usedCount = 0`, or add 1 to the count of a code that is capped and not
exhausted. -/
theorem run_accessCodes (h : Handler) (s : Store) (env : Env) (req : Req) :
    (h.run s env req).1.accessCodes = s.accessCodes ∨
    (∃ c, createAccessCode c s.accessCodes = some (h.run s env req).1.accessCodes ∧
      h = .createInvite ∧ (h.run s env req).2.status = 201 ∧
      s.findEditable req.tripId (principal req) ≠ none ∧
      c.usedCount = 0 ∧ c.expiresAt = none ∧ c.tripId = req.tripId ∧ some c.role = req.role ∧
      (c.role = "admin" ∨ c.role = "viewer") ∧
      (req.type = some "single" ∧ c.maxUses = some 1 ∨
        req.type ≠ some "single" ∧ c.maxUses = none)) ∨
    (∃ invite, s.accessCodes.find? (fun c => some c.code == req.code) = some invite ∧
      h = .joinTripByCode ∧ invite.capped = true ∧ invite.exhausted = false ∧
      invite.expired env.now = false ∧
      (incrementUsed invite.id s.accessCodes).map Prod.fst
        = some (h.run s env req).1.accessCodes) := by
  cases h
  case createInvite =>
    simp only [Handler.run, createInvite]
    split
    · exact Or.inl rfl
    · split
      · exact Or.inl rfl
      · split
        · exact Or.inl rfl
        · rename_i hr _ _ hfe _ cs hc
          have hrole : req.role = some "admin" ∨ req.role = some "viewer" := by
            by_cases h1 : req.role = some "admin"
            · exact Or.inl h1
            · by_cases h2 : req.role = some "viewer"
              · exact Or.inr h2
              · simp [h1, h2] at hr
          refine Or.inr (Or.inl ⟨_, hc, by trivial, rfl, by simp [hfe],
            rfl, rfl, rfl, ?_, ?_, ?_⟩)
          · simp only [newAccessCode]
            rcases hrole with hr | hr <;> simp [hr]
          · simp only [newAccessCode]
            rcases hrole with hr | hr <;> simp [hr]
          · simp only [newAccessCode]
            by_cases ht : req.type = some "single" <;> simp [ht]
  case joinTripByCode =>
    simp only [Handler.run, joinTripByCode]
    split
    · exact Or.inl rfl
    · split
      · exact Or.inl rfl
      · rename_i invite hf
        split
        · exact Or.inl rfl
        · split
          · exact Or.inl rfl
          · rename_i hex hxp
            by_cases hcap : invite.capped = true
            · simp only [hcap, if_true]
              cases hi : incrementUsed invite.id s.accessCodes with
              | none => exact Or.inl rfl
              | some p =>
                simp only [Option.map_some']
                refine Or.inr (Or.inr ⟨invite, hf, by trivial, hcap, by simpa using hex,
                  by simpa using hxp, ?_⟩)
                split <;> simp [hi]
            · simp only [hcap, Bool.false_eq_true, if_false]
              split <;> exact Or.inl rfl
  case deleteTrip =>
    simp only [Handler.run, deleteTrip]
    split
    · exact Or.inl rfl
    · split
      · exact Or.inl rfl
      · rename_i hd
        exact Or.inl (deleteTripCascade_eq _ _ _ hd).1
  all_goals
    refine Or.inl ?_
    simp only [Handler.run, listTrips, createTrip, getTrip, updateTrip, addChecklistItem,
      toggleCheckItem, updateCheckItem, deleteCheckItem, addDay, updateDay, deleteDay,
      exportTripPdf]
    repeat' split
    all_goals rfl

theorem createAccessCode_eq {c : AccessCode} {cs cs2 : List AccessCode}
    (h : createAccessCode c cs = some cs2) :
    cs2 = cs ++ [c] ∧ ∀ x ∈ cs, x.id ≠ c.id ∧ x.code ≠ c.code := by
  unfold createAccessCode at h
  split at h
  · exact absurd h (by simp)
  · rename_i hn
    simp only [Option.some.injEq] at h
    refine ⟨h.symm, fun x hx => ?_⟩
    simp only [List.any_eq_true, Bool.or_eq_true, beq_iff_eq, not_exists, not_and, not_or] at hn
    exact hn x hx

/-- One call keeps the `accessCode` table within its keys and its bound, and
lets no count go down. -/
theorem run_codes_invariant (h : Handler) (s : Store) (env : Env) (req : Req)
    (hids : UniqueCodeIds s.accessCodes) (hcodes : UniqueCodes s.accessCodes)
    (hb : UsesBounded s.accessCodes) :
    UniqueCodeIds (h.run s env req).1.accessCodes ∧
    UniqueCodes (h.run s env req).1.accessCodes ∧
    UsesBounded (h.run s env req).1.accessCodes ∧
    ∀ c ∈ s.accessCodes, ∃ c2 ∈ (h.run s env req).1.accessCodes, CodeGrew c c2 := by
  rcases run_accessCodes h s env req with he | ⟨c, hc, -, -, -, hu, -, -, -, -, hmx⟩ |
    ⟨invite, hf, -, hcap, hex, -, hi⟩
  · rw [he]
    exact ⟨hids, hcodes, hb, fun c hc => ⟨c, hc, rfl, le_refl _⟩⟩
  · obtain ⟨he, hfresh⟩ := createAccessCode_eq hc
    rw [he]
    refine ⟨?_, ?_, ?_, fun x hx => ⟨x, by simp [hx], rfl, le_refl _⟩⟩
    · unfold UniqueCodeIds at *
      rw [List.pairwise_append]
      refine ⟨hids, by simp, fun a ha b hb => ?_⟩
      simp only [List.mem_singleton] at hb
      rw [hb]; exact (hfresh a ha).1
    · unfold UniqueCodes at *
      rw [List.pairwise_append]
      refine ⟨hcodes, by simp, fun a ha b hb => ?_⟩
      simp only [List.mem_singleton] at hb
      rw [hb]; exact (hfresh a ha).2
    · intro x hx m hm
      rw [List.mem_append, List.mem_singleton] at hx
      rcases hx with hx | hx
      · exact hb x hx m hm
      · subst hx
        rw [hu]
        rcases hmx with ⟨-, h1⟩ | ⟨-, h1⟩
        · rw [h1] at hm; cases hm; decide
        · rw [h1] at hm; cases hm
  · have hmem := List.mem_of_find?_eq_some hf
    rw [incrementUsed, updateById_unique hids hmem] at hi
    simp only [Option.map_some', Option.some.injEq] at hi
    rw [← hi]
    refine ⟨?_, ?_, ?_, ?_⟩
    · unfold UniqueCodeIds at *
      rw [List.pairwise_map]
      refine hids.imp ?_
      intro a b hab
      by_cases ea : a = invite <;> by_cases eb : b = invite <;> simp [ea, eb] <;>
        simp_all
    · unfold UniqueCodes at *
      rw [List.pairwise_map]
      refine hcodes.imp ?_
      intro a b hab
      by_cases ea : a = invite <;> by_cases eb : b = invite <;> simp [ea, eb] <;>
        simp_all
    · intro x hx m hm
      rw [List.mem_map] at hx
      obtain ⟨y, hy, rfl⟩ := hx
      by_cases e : y = invite
      · subst e
        simp only [if_true] at hm ⊢
        simp only [AccessCode.exhausted, hm, AccessCode.capped] at hex hcap
        simp at hex hcap
        have := hex hcap
        omega
      · simp only [e, if_false] at hm ⊢
        exact hb y hy m hm
    · intro x hx
      by_cases e : x = invite
      · exact ⟨{ x with usedCount := x.usedCount + 1 },
          List.mem_map.mpr ⟨x, hx, by simp [e]⟩, rfl, by simp⟩
      · exact ⟨x, List.mem_map.mpr ⟨x, hx, by simp [e]⟩, rfl, le_refl _⟩

theorem codeGrew_trans {a b c : AccessCode} (h1 : CodeGrew a b) (h2 : CodeGrew b c) :
    CodeGrew a c := by
  obtain ⟨e1, l1⟩ := h1
  obtain ⟨e2, l2⟩ := h2
  refine ⟨?_, le_trans l1 l2⟩
  rw [e2, e1]

/-- Any sequence of calls keeps the `accessCode` table within its keys and its
bound, and lets no count go down. -/
theorem runAll_codes_invariant (calls : List (Handler × Env × Req)) :
    ∀ s : Store, UniqueCodeIds s.accessCodes → UniqueCodes s.accessCodes →
      UsesBounded s.accessCodes →
      UniqueCodeIds (runAll calls s).accessCodes ∧
      UniqueCodes (runAll calls s).accessCodes ∧
      UsesBounded (runAll calls s).accessCodes ∧
      ∀ c ∈ s.accessCodes, ∃ c2 ∈ (runAll calls s).accessCodes, CodeGrew c c2 := by
  induction calls with
  | nil =>
    intro s hids hcodes hb
    exact ⟨hids, hcodes, hb, fun c hc => ⟨c, hc, rfl, le_refl _⟩⟩
  | cons call rest ih =>
    intro s hids hcodes hb
    obtain ⟨h, env, req⟩ := call
    obtain ⟨h1, h2, h3, h4⟩ := run_codes_invariant h s env req hids hcodes hb
    obtain ⟨k1, k2, k3, k4⟩ := ih (h.run s env req).1 h1 h2 h3
    refine ⟨k1, k2, k3, fun c hc => ?_⟩
    obtain ⟨c2, hc2, g2⟩ := h4 c hc
    obtain ⟨c3, hc3, g3⟩ := k4 c2 hc2
    exact ⟨c3, hc3, codeGrew_trans g2 g3⟩

/-- A `createInvite` call answered 201 stored one code, with count 0. -/
theorem createInvite_created (s : Store) (env : Env) (req : Req)
    (hst : (createInvite s env req).2.status = 201) :
    ∃ c, createAccessCode c s.accessCodes = some (createInvite s env req).1.accessCodes ∧
      c.usedCount = 0 ∧ (c.maxUses = some 1 ∨ c.maxUses = none) := by
  by_cases hr : (!(req.role == some "admin" || req.role == some "viewer")) = true
  · simp [createInvite, hr, fail] at hst
  · cases hfe : s.findEditable req.tripId (principal req) with
    | none => simp [createInvite, hr, hfe, fail] at hst
    | some t =>
      cases hc : createAccessCode (newAccessCode env.newId req.tripId (req.role.getD "")
          env.random (if req.type == some "single" then some 1 else none)) s.accessCodes with
      | none => simp only [createInvite, hr, hfe, hc, if_false, fail] at hst; simp at hst
      | some cs =>
        refine ⟨newAccessCode env.newId req.tripId (req.role.getD "")
          env.random (if req.type == some "single" then some 1 else none), ?_, rfl, ?_⟩
        · have hc2 := hc
          simp only [beq_iff_eq] at hc2
          simp [createInvite, hr, hfe, hc2]
        · simp only [newAccessCode]
          by_cases ht : req.type = some "single" <;> simp [ht]

/-- C6: in a database that respects the keys of `accessCode` (unique ids and
codes) and in which every code with `maxUses` set has `usedCount ≤ maxUses`,
any sequence of handler calls run one after the other, successful or failed,
ends in a database where that bound still holds; every code is still there
with the same fields and a count that has not gone down; and a code
`createInvite` has just stored starts at `usedCount = 0` with `maxUses` 1 or
unset, within the bound. -/
theorem uses_bounded_invariant (s : Store) (calls : List (Handler × Env × Req))
    (hids : UniqueCodeIds s.accessCodes) (hcodes : UniqueCodes s.accessCodes)
    (hb : UsesBounded s.accessCodes) :
    UsesBounded (runAll calls s).accessCodes ∧
    (∀ c ∈ s.accessCodes, ∃ c2 ∈ (runAll calls s).accessCodes, CodeGrew c c2) ∧
    (∀ env req, (createInvite s env req).2.status = 201 →
      ∃ c, (createInvite s env req).1.accessCodes = s.accessCodes ++ [c] ∧
        c.usedCount = 0 ∧ (c.maxUses = some 1 ∨ c.maxUses = none) ∧
        UsesBounded (createInvite s env req).1.accessCodes) := by
  obtain ⟨-, -, k3, k4⟩ := runAll_codes_invariant calls s hids hcodes hb
  refine ⟨k3, k4, fun env req hst => ?_⟩
  have hbound := (run_codes_invariant .createInvite s env req hids hcodes hb).2.2.1
  obtain ⟨c, hc, hu, hmx⟩ := createInvite_created s env req hst
  exact ⟨c, (createAccessCode_eq hc).1, hu, hmx, hbound⟩

/-- The sample session: the trip and the code are created, `bob` becomes a
viewer and uses the code up, `carol` is refused. -/
theorem sampleCalls_result :
    (runAll sampleCalls Store.empty).accessCodes = [freshCode.withUsed 1] ∧
    (runAll sampleCalls Store.empty).members = [⟨"t1", "bob", "viewer"⟩] ∧
    (runAll sampleCalls Store.empty).trips.map Trip.id = ["t1"] := by
  decide

/-- Witness of C6: the sample session from the empty database ends within the
bound. -/
theorem uses_bounded_invariant_witness :
    UsesBounded (runAll sampleCalls Store.empty).accessCodes :=
  (uses_bounded_invariant Store.empty sampleCalls (by decide) (by decide)
    (fun c hc => absurd hc (List.not_mem_nil c))).1

/-! ## One row per trip and principal (C7) -/

/-- What a handler can do to the `tripMember` table: nothing, upsert the row
of the caller on the trip of a redeemable code, or drop the rows of a trip the
caller may edit. -/
theorem run_members (h : Handler) (s : Store) (env : Env) (req : Req) :
    (h.run s env req).1.members = s.members ∨
    (∃ invite, s.accessCodes.find? (fun c => some c.code == req.code) = some invite ∧
      h = .joinTripByCode ∧ invite.exhausted = false ∧ invite.expired env.now = false ∧
      (h.run s env req).1.members
        = upsertMember invite.tripId (principal req) invite.role s.members) ∨
    (h = .deleteTrip ∧ s.findEditable req.tripId (principal req) ≠ none ∧
      (h.run s env req).1.members = s.members.filter (fun m => !(m.tripId == req.tripId))) := by
  cases h
  case joinTripByCode =>
    simp only [Handler.run, joinTripByCode]
    split
    · exact Or.inl rfl
    · split
      · exact Or.inl rfl
      · rename_i invite hf
        split
        · exact Or.inl rfl
        · split
          · exact Or.inl rfl
          · rename_i hex hxp
            refine Or.inr (Or.inl ⟨invite, hf, by trivial, by simpa using hex,
              by simpa using hxp, ?_⟩)
            by_cases hcap : invite.capped = true
            · simp only [hcap, if_true]
              cases hi : incrementUsed invite.id s.accessCodes with
              | none => rfl
              | some p =>
                simp only [Option.map_some']
                split <;> rfl
            · simp only [hcap, Bool.false_eq_true, if_false]
              split <;> rfl
  case deleteTrip =>
    simp only [Handler.run, deleteTrip]
    split
    · exact Or.inl rfl
    · rename_i hfe
      split
      · exact Or.inl rfl
      · rename_i hd
        exact Or.inr (Or.inr ⟨by trivial, by simp [hfe], (deleteTripCascade_eq _ _ _ hd).2.1⟩)
  all_goals
    refine Or.inl ?_
    simp only [Handler.run, listTrips, createTrip, getTrip, updateTrip, addChecklistItem,
      toggleCheckItem, updateCheckItem, deleteCheckItem, addDay, updateDay, deleteDay,
      createInvite, exportTripPdf]
    repeat' split
    all_goals rfl

theorem upsertMember_unique (tripId userId role : String) (ms : List TripMember)
    (hkey : UniqueMemberKeys ms) : UniqueMemberKeys (upsertMember tripId userId role ms) := by
  unfold upsertMember
  split
  · unfold UniqueMemberKeys at *
    rw [List.pairwise_map]
    refine hkey.imp ?_
    intro a b hab
    by_cases ea : (a.tripId == tripId && a.userId == userId) = true <;>
      by_cases eb : (b.tripId == tripId && b.userId == userId) = true <;>
      simp only [ea, eb, if_true, if_false, Bool.false_eq_true] <;> exact hab
  · rename_i hn
    unfold UniqueMemberKeys at *
    rw [List.pairwise_append]
    refine ⟨hkey, by simp, fun a ha b hb => ?_⟩
    simp only [List.mem_singleton] at hb
    subst hb
    simp only [List.any_eq_true, Bool.and_eq_true, beq_iff_eq, not_exists, not_and] at hn
    intro e
    exact hn a ha e.1 e.2

theorem filter_key_length (tripId userId : String) (ms : List TripMember)
    (hkey : UniqueMemberKeys ms) :
    (ms.filter (fun m => m.tripId == tripId && m.userId == userId)).length ≤ 1 := by
  induction ms with
  | nil => simp
  | cons a rest ih =>
    unfold UniqueMemberKeys at hkey
    rw [List.pairwise_cons] at hkey
    by_cases ha : (a.tripId == tripId && a.userId == userId) = true
    · have : rest.filter (fun m => m.tripId == tripId && m.userId == userId) = [] := by
        rw [List.filter_eq_nil_iff]
        intro b hb hbk
        simp only [Bool.and_eq_true, beq_iff_eq] at ha hbk
        exact hkey.1 b hb ⟨ha.1.trans hbk.1.symm, ha.2.trans hbk.2.symm⟩
      simp [List.filter_cons, ha, this]
    · simp only [List.filter_cons, ha, Bool.false_eq_true, if_false]
      exact ih hkey.2

theorem upsertMember_filter (tripId userId role : String) (ms : List TripMember)
    (hkey : UniqueMemberKeys ms) :
    (upsertMember tripId userId role ms).filter
        (fun m => m.tripId == tripId && m.userId == userId)
      = [⟨tripId, userId, role⟩] := by
  have hlen := filter_key_length tripId userId ms hkey
  unfold upsertMember
  split
  · rename_i h
    rw [List.filter_map]
    have hcomp : ((fun m : TripMember => m.tripId == tripId && m.userId == userId) ∘
        (fun m : TripMember =>
          if (m.tripId == tripId && m.userId == userId) = true then
            { m with role := role } else m))
        = (fun m : TripMember => m.tripId == tripId && m.userId == userId) := by
      funext m
      by_cases e : (m.tripId == tripId && m.userId == userId) = true
      · simp only [Function.comp, e, if_true]
      · simp only [Function.comp, e, if_false, Bool.false_eq_true]
    rw [hcomp]
    simp only [List.any_eq_true] at h
    obtain ⟨m, hm, hk⟩ := h
    have hmf : m ∈ ms.filter (fun m => m.tripId == tripId && m.userId == userId) :=
      List.mem_filter.mpr ⟨hm, hk⟩
    cases hl : ms.filter (fun m => m.tripId == tripId && m.userId == userId) with
    | nil => rw [hl] at hmf; simp at hmf
    | cons x rest =>
      rw [hl] at hlen hmf
      have hr : rest = [] := by
        cases rest with
        | nil => rfl
        | cons _ _ => simp at hlen
      subst hr
      simp only [List.mem_singleton] at hmf
      subst hmf
      simp only [Bool.and_eq_true, beq_iff_eq] at hk
      simp [hk.1, hk.2]
  · rename_i h
    have : ms.filter (fun m => m.tripId == tripId && m.userId == userId) = [] := by
      rw [List.filter_eq_nil_iff]
      intro b hb hbk
      exact h (List.any_eq_true.mpr ⟨b, hb, hbk⟩)
    simp [List.filter_append, this]

theorem upsertMember_idem (tripId userId role : String) (ms : List TripMember) :
    upsertMember tripId userId role (upsertMember tripId userId role ms)
      = upsertMember tripId userId role ms := by
  have hany : (upsertMember tripId userId role ms).any
      (fun m => m.tripId == tripId && m.userId == userId) = true := by
    obtain ⟨m, hm, ht, hu, -⟩ := upsertMember_mem tripId userId role ms
    exact List.any_eq_true.mpr ⟨m, hm, by simp [ht, hu]⟩
  have key : ∀ l : List TripMember,
      l.any (fun m => m.tripId == tripId && m.userId == userId) = true →
      upsertMember tripId userId role l = l.map (fun m =>
        if m.tripId == tripId && m.userId == userId then { m with role := role } else m) := by
    intro l hl
    unfold upsertMember
    simp only [hl, if_true]
  rw [key _ hany]
  unfold upsertMember
  split
  · rw [List.map_map]
    apply List.map_congr_left
    intro m _
    by_cases e : (m.tripId == tripId && m.userId == userId) = true
    · simp only [Function.comp, e, if_true]
    · simp only [Function.comp, e, if_false, Bool.false_eq_true]
  · rename_i hn
    rw [List.map_append]
    congr 1
    · conv_rhs => rw [← List.map_id ms]
      apply List.map_congr_left
      intro m hm
      have : ¬ (m.tripId == tripId && m.userId == userId) = true := fun e =>
        hn (List.any_eq_true.mpr ⟨m, hm, e⟩)
      simp only [this, if_false, id, Bool.false_eq_true]
    · simp

theorem upsertMember_other (tripId userId role : String) (ms : List TripMember)
    (m : TripMember) (hm : ¬(m.tripId = tripId ∧ m.userId = userId)) :
    m ∈ upsertMember tripId userId role ms ↔ m ∈ ms := by
  unfold upsertMember
  split
  · rw [List.mem_map]
    constructor
    · rintro ⟨x, hx, hfx⟩
      by_cases e : (x.tripId == tripId && x.userId == userId) = true
      · simp only [e, if_true] at hfx
        simp only [Bool.and_eq_true, beq_iff_eq] at e
        exact absurd (by rw [← hfx]; exact e) hm
      · simp only [e, if_false, Bool.false_eq_true] at hfx
        rw [← hfx]; exact hx
    · intro h
      refine ⟨m, h, ?_⟩
      have : ¬ (m.tripId == tripId && m.userId == userId) = true := by simpa using hm
      simp only [this, if_false, Bool.false_eq_true]
  · rw [List.mem_append, List.mem_singleton]
    constructor
    · rintro (h | h)
      · exact h
      · exact absurd (by rw [h]; exact ⟨rfl, rfl⟩) hm
    · exact Or.inl

theorem find?_map_invariant {α : Type} (p : α → Bool) (f : α → α) (l : List α)
    (hp : ∀ x, p (f x) = p x) : (l.map f).find? p = (l.find? p).map f := by
  induction l with
  | nil => rfl
  | cons a rest ih =>
    simp only [List.map_cons, List.find?_cons, hp]
    cases p a <;> simp [ih]

/-- One call keeps the membership rows within their key. -/
theorem run_members_unique (h : Handler) (s : Store) (env : Env) (req : Req)
    (hkey : UniqueMemberKeys s.members) : UniqueMemberKeys (h.run s env req).1.members := by
  rcases run_members h s env req with he | ⟨invite, -, -, -, -, he⟩ | ⟨-, -, he⟩
  · rw [he]; exact hkey
  · rw [he]; exact upsertMember_unique _ _ _ _ hkey
  · rw [he]; exact List.Pairwise.sublist (List.filter_sublist _) hkey

/-- Any sequence of calls keeps the membership rows within their key. -/
theorem runAll_members_unique (calls : List (Handler × Env × Req)) :
    ∀ s : Store, UniqueMemberKeys s.members → UniqueMemberKeys (runAll calls s).members := by
  induction calls with
  | nil => intro s h; exact h
  | cons call rest ih =>
    intro s h
    obtain ⟨hd, env, req⟩ := call
    exact ih _ (run_members_unique hd s env req h)

/-- After a `joinTripByCode` call answered 200, the code it redeemed is still
found under the same text, with the same trip and role. -/
theorem joinTripByCode_code_kept (s : Store) (env : Env) (req : Req) (s1 : Store)
    (r : Response) (invite : AccessCode)
    (hf : s.accessCodes.find? (fun c => some c.code == req.code) = some invite)
    (h : joinTripByCode s env req = (s1, r)) (hok : r.status = 200) :
    ∃ invite2, s1.accessCodes.find? (fun c => some c.code == req.code) = some invite2 ∧
      invite2.tripId = invite.tripId ∧ invite2.role = invite.role ∧
      invite2.code = invite.code ∧ invite2.id = invite.id ∧
      invite2.maxUses = invite.maxUses := by
  obtain ⟨inv, trip, -, hf2, -, -, -, -, -, -, hc, -, -⟩ := joinTripByCode_ok s env req s1 r h hok
  rw [hf] at hf2
  cases hf2
  by_cases hcap : invite.capped = true
  · simp only [hcap, if_true, incrementUsed, updateById] at hc
    cases hu : s.accessCodes.find? (fun r => r.id == invite.id) with
    | none => simp [hu] at hc
    | some x =>
      simp only [hu, Option.map_some', Option.some.injEq] at hc
      rw [← hc, find?_map_invariant _ _ _ (by intro x; split <;> rfl), hf]
      refine ⟨_, rfl, ?_⟩
      simp
  · simp only [hcap, Bool.false_eq_true, if_false] at hc
    rw [hc]
    exact ⟨invite, hf, rfl, rfl, rfl, rfl, rfl⟩

/-- C7: in a database that respects the key `(tripId, userId)` of
`tripMember` and the unique key `code`, when a principal redeems the same code
twice in a row and both calls answer 200, there is after the first call, and
after the second, exactly one membership row for that principal on the code's
trip, with the code's role; the second call leaves the membership table as the
first left it; rows of other (trip, principal) pairs are the same before and
after; and no sequence of handler calls ever breaks the key. -/
theorem redemption_idempotent (s : Store) (env1 env2 : Env) (req : Req) (invite : AccessCode)
    (s1 s2 : Store) (r1 r2 : Response)
    (hkey : UniqueMemberKeys s.members) (hmem : invite ∈ s.accessCodes)
    (hcodes : UniqueCodes s.accessCodes) (hreq : req.code = some invite.code)
    (h1 : joinTripByCode s env1 req = (s1, r1)) (hok1 : r1.status = 200)
    (h2 : joinTripByCode s1 env2 req = (s2, r2)) (hok2 : r2.status = 200) :
    s1.members.filter (fun m => m.tripId == invite.tripId && m.userId == principal req)
      = [⟨invite.tripId, principal req, invite.role⟩] ∧
    s2.members.filter (fun m => m.tripId == invite.tripId && m.userId == principal req)
      = [⟨invite.tripId, principal req, invite.role⟩] ∧
    s2.members = s1.members ∧
    (∀ m : TripMember, ¬(m.tripId = invite.tripId ∧ m.userId = principal req) →
      (m ∈ s1.members ↔ m ∈ s.members)) ∧
    (∀ calls, UniqueMemberKeys (runAll calls s).members) := by
  have hf := find_code_eq hmem hcodes hreq
  obtain ⟨inv, -, -, hf1, -, -, -, -, -, hm1, -, -, -⟩ :=
    joinTripByCode_ok s env1 req s1 r1 h1 hok1
  rw [hf] at hf1
  cases hf1
  obtain ⟨inv2, hf2, ht2, hr2, -⟩ := joinTripByCode_code_kept s env1 req s1 r1 invite hf h1 hok1
  obtain ⟨inv3, -, -, hf3, -, -, -, -, -, hm2, -, -, -⟩ :=
    joinTripByCode_ok s1 env2 req s2 r2 h2 hok2
  rw [hf2] at hf3
  cases hf3
  rw [ht2, hr2] at hm2
  have hsame : s2.members = s1.members := by
    rw [hm2, hm1, upsertMember_idem]
  refine ⟨?_, ?_, hsame, ?_, fun calls => runAll_members_unique calls s hkey⟩
  · rw [hm1]; exact upsertMember_filter _ _ _ _ hkey
  · rw [hsame, hm1]; exact upsertMember_filter _ _ _ _ hkey
  · intro m hm
    rw [hm1]; exact upsertMember_other _ _ _ _ m hm

/-- Witness of C7: `bob` redeems the unlimited code `openCode` twice; the
second call leaves the membership table as the first left it. -/
theorem redemption_idempotent_witness :
    (joinTripByCode (joinTripByCode openStore sampleEnv bobJoinsOpen).1 sampleEnv
        bobJoinsOpen).1.members
      = (joinTripByCode openStore sampleEnv bobJoinsOpen).1.members :=
  (redemption_idempotent openStore sampleEnv sampleEnv bobJoinsOpen openCode
    (joinTripByCode openStore sampleEnv bobJoinsOpen).1
    (joinTripByCode (joinTripByCode openStore sampleEnv bobJoinsOpen).1 sampleEnv
        bobJoinsOpen).1
    (joinTripByCode openStore sampleEnv bobJoinsOpen).2
    (joinTripByCode (joinTripByCode openStore sampleEnv bobJoinsOpen).1 sampleEnv
        bobJoinsOpen).2
    (by decide) (by decide) (by decide) rfl rfl (by decide) rfl (by decide)).2.2.1

/-! ## Two redemptions at once (C4) -/

/-- The steps of `joinTripByCode`, run without interruption, are the handler. -/
theorem joinSteps_eq (s : Store) (env : Env) (req : Req) :
    joinSteps env req 4 (s, .lookup)
      = ((joinTripByCode s env req).1, .done (joinTripByCode s env req).2) := by
  simp only [joinSteps, joinStep, joinTripByCode]
  by_cases hc : truthy req.code = true
  swap
  · simp [hc, joinStep]
  simp only [hc, Bool.not_true, Bool.false_eq_true, if_false]
  cases hf : s.accessCodes.find? (fun c => some c.code == req.code) with
  | none => simp [joinStep]
  | some invite =>
    simp only [joinStep]
    by_cases hex : invite.exhausted = true
    · simp [hex, joinStep]
    by_cases hxp : invite.expired env.now = true
    · simp [hex, hxp, joinStep]
    simp only [hex, hxp, Bool.false_eq_true, if_false]
    by_cases hcap : invite.capped = true
    · simp only [hcap, if_true, joinStep]
      cases hi : incrementUsed invite.id s.accessCodes with
      | none => simp [joinStep]
      | some p =>
        simp only [Option.map_some', joinStep]
        cases ht : s.trips.find? (fun t => t.id == invite.tripId) <;> simp
    · simp only [hcap, Bool.false_eq_true, if_false, joinStep]
      cases ht : s.trips.find? (fun t => t.id == invite.tripId) <;> simp [joinStep]

/-- C4, evaluated: `bob` and `carol` redeem the unused single-use code
`freshCode` at the same time.  When one call ends before the other starts, the
first answers 200 and the second 400 `INVITE_ALREADY_USED`, with
`usedCount = 1` and one membership row.  When both calls look the code up
before either goes on, both answer 200 with role `viewer`, `usedCount` ends at
2 and two membership rows are stored. -/
theorem single_use_race :
    (calmRun.2.1.answer.map Response.status = some 200 ∧
      calmRun.2.2.answer = some (fail 400 "INVITE_ALREADY_USED") ∧
      calmRun.1.accessCodes = [freshCode.withUsed 1] ∧
      calmRun.1.members = [⟨"t1", "bob", "viewer"⟩]) ∧
    (raceRun.2.1.answer.map Response.status = some 200 ∧
      raceRun.2.2.answer.map Response.status = some 200 ∧
      raceRun.2.1.answer.bind Response.currentRole = some "viewer" ∧
      raceRun.2.2.answer.bind Response.currentRole = some "viewer" ∧
      raceRun.1.accessCodes = [freshCode.withUsed 2] ∧
      raceRun.1.members = [⟨"t1", "bob", "viewer"⟩, ⟨"t1", "carol", "viewer"⟩]) := by
  decide

/-! ## Guards of the handlers (C8, C9, C10) -/

/-- C8, evaluated: `alice` has no role on `porto`, yet her `updateDay` request
through the route of her own trip `lisboa` rewrites the notes of a day of
`porto`: `updateDay` addresses the day by `dayId` alone.  The same request to
`deleteDay`, which looks the day up by `dayId` and `tripId`, is answered 404
`DAY_NOT_FOUND` and changes nothing. -/
theorem updateDay_crosses_trips :
    portoDay ∈ tourStore.days ∧ portoDay.tripId = porto.id ∧
    tourStore.readableBy "alice" porto = false ∧
    tourStore.editableBy "alice" porto = false ∧
    updateDay tourStore sampleEnv aliceRewritesPortoDay
      = (tourStoreRewritten, ⟨200, .day (portoDay.withNotes (some "rewritten"))⟩) ∧
    tourStoreRewritten ≠ tourStore ∧
    deleteDay tourStore sampleEnv aliceRewritesPortoDay
      = (tourStore, fail 404 "DAY_NOT_FOUND") := by
  decide

/-- C9, evaluated: `eve` has no role on `lisboa`.  Her `toggleCheckItem`
request for an item of `lisboa` is answered 404 `TRIP_NOT_FOUND` where
`lisboa` exists and 404 `CHECKITEM_NOT_FOUND` where it does not (never
created, or deleted by its owner), so the two cases can be told apart.  The
same request to `updateCheckItem`, which tests the trip before the item, is
answered 404 `TRIP_NOT_FOUND` in both. -/
theorem toggle_reveals_trip :
    tourStore.readableBy "eve" lisboa = false ∧
    (toggleCheckItem tourStore sampleEnv eveToggles).2 = fail 404 "TRIP_NOT_FOUND" ∧
    (toggleCheckItem tourStoreWithoutLisboa sampleEnv eveToggles).2
      = fail 404 "CHECKITEM_NOT_FOUND" ∧
    (deleteTrip tourStore sampleEnv aliceDeletesLisboa).1 = tourStoreWithoutLisboa ∧
    (updateCheckItem tourStore sampleEnv eveRelabels).2 = fail 404 "TRIP_NOT_FOUND" ∧
    (updateCheckItem tourStoreWithoutLisboa sampleEnv eveRelabels).2
      = fail 404 "TRIP_NOT_FOUND" := by
  decide

/-- Counterexample to C10 as stated: a request without principal id reads
`rootTrip` as its administrator and deletes it. -/
theorem missing_principal_counterexample :
    nobodyAsksRoot.userId = none ∧
    (getTrip rootStore sampleEnv nobodyAsksRoot).2.currentRole = some "admin" ∧
    (listTrips rootStore sampleEnv nobodyAsksRoot).2 = ⟨200, .trips [(rootTrip, 0, 0)]⟩ ∧
    deleteTrip rootStore sampleEnv nobodyAsksRoot = (Store.empty, ⟨204, .empty⟩) := by
  decide

/-- C10, amended: every handler serves a request that carries no principal id
exactly as it serves the same request from the principal `"1"`; and a route
behind `requireAuth` answers 401 without running the handler or touching the
database when the header is not `Bearer` followed by a token or the token does
not verify, and otherwise runs the handler with the subject of the token,
which may be missing. -/
theorem missing_principal_is_one (verify : String → Option (Option String)) (h : Handler)
    (s : Store) (env : Env) (words : List String) (req : Req) :
    h.run s env (req.sentBy none) = h.run s env (req.sentBy (some "1")) ∧
    route verify h s env words req =
      (if words.head? != some "Bearer" || !truthy words.tail.head? then
        (s, fail 401 "UNAUTHORIZED")
      else match verify (words.tail.head?.getD "") with
        | none => (s, fail 401 "INVALID_TOKEN")
        | some sub => h.run s env (req.sentBy sub)) := by
  constructor
  · cases h <;> rfl
  · unfold route requireAuth
    by_cases hw : (words.head? != some "Bearer" || !truthy words.tail.head?) = true
    · simp only [hw, if_true]
    · simp only [hw, if_false]
      cases verify (words.tail.head?.getD "") <;> rfl

/-! ## What the guards do ensure -/

/-- A mutating handler changes nothing when the caller is neither the owner
nor an administrator of the trip of the route. -/
theorem mutation_needs_admin (h : Handler) (s : Store) (env : Env) (req : Req)
    (hm : h.mutating = true) (hno : s.findEditable req.tripId (principal req) = none) :
    (h.run s env req).1 = s := by
  cases h <;> simp only [Handler.mutating, Bool.false_eq_true] at hm <;>
    simp only [Handler.run, updateTrip, deleteTrip, addDay, updateDay, deleteDay,
      addChecklistItem, toggleCheckItem, updateCheckItem, deleteCheckItem, createInvite, hno] <;>
    repeat' split
  all_goals rfl

/-- Every reading or mutating handler other than `toggleCheckItem` answers a
caller without the needed role on the trip of the route the same way in any
two databases, whether the trip exists or not. -/
theorem deny_shape_uniform (h : Handler) (s s2 : Store) (env env2 : Env) (req : Req)
    (hne : h ≠ .toggleCheckItem)
    (hno : if h.reading then s.findReadable req.tripId (principal req) = none
      else h.mutating = true ∧ s.findEditable req.tripId (principal req) = none)
    (hno2 : if h.reading then s2.findReadable req.tripId (principal req) = none
      else h.mutating = true ∧ s2.findEditable req.tripId (principal req) = none) :
    (h.run s env req).2 = (h.run s2 env2 req).2 := by
  cases h <;> simp only [Handler.reading, Handler.mutating, if_true, if_false,
      Bool.false_eq_true, false_and, true_and] at hno hno2 <;>
    first
      | exact absurd rfl hne
      | (simp only [Handler.run, getTrip, exportTripPdf, updateTrip, deleteTrip, addDay,
          updateDay, deleteDay, addChecklistItem, updateCheckItem, deleteCheckItem,
          createInvite, hno, hno2]
         repeat' split
         all_goals rfl)

theorem pairwise_ids_eq {α : Type} {getId : α → String} {rows : List α}
    (h : rows.Pairwise (fun a b => getId a ≠ getId b)) {a b : α}
    (ha : a ∈ rows) (hb : b ∈ rows) (hid : getId a = getId b) : a = b := by
  by_contra hne
  exact List.Pairwise.forall (fun _ _ hxy => fun e => hxy e.symm) h ha hb hne hid

/-- An update by id of rows of one trip leaves the rows of other trips alone. -/
theorem updateById_frame {α : Type} (getId getTrip : α → String) (id trip : String)
    (f : α → α) (rows rows2 : List α) (r : α)
    (h : updateById getId id f rows = some (rows2, r))
    (hrow : ∀ y ∈ rows, getId y = id → getTrip y = trip)
    (hf : ∀ y, getTrip y = trip → getTrip (f y) = trip)
    (x : α) (hx : getTrip x ≠ trip) : x ∈ rows2 ↔ x ∈ rows := by
  unfold updateById at h
  split at h
  · exact absurd h (by simp)
  · simp only [Option.some.injEq, Prod.mk.injEq] at h
    rw [← h.1, List.mem_map]
    constructor
    · rintro ⟨y, hy, hfy⟩
      by_cases e : (getId y == id) = true
      · simp only [e, if_true] at hfy
        simp only [beq_iff_eq] at e
        exact absurd (by rw [← hfy]; exact hf y (hrow y hy e)) hx
      · simp only [e, if_false, Bool.false_eq_true] at hfy
        rw [← hfy]; exact hy
    · intro hxr
      refine ⟨x, hxr, ?_⟩
      by_cases e : (getId x == id) = true
      · simp only [beq_iff_eq] at e
        exact absurd (hrow x hxr e) hx
      · simp only [e, if_false, Bool.false_eq_true]

/-- A deletion by id of rows of one trip leaves the rows of other trips alone. -/
theorem deleteById_frame {α : Type} (getId getTrip : α → String) (id trip : String)
    (rows rows2 : List α)
    (hrow : ∀ y ∈ rows, getId y = id → getTrip y = trip)
    (h : deleteById getId id rows = some rows2)
    (x : α) (hx : getTrip x ≠ trip) : x ∈ rows2 ↔ x ∈ rows := by
  unfold deleteById at h
  split at h
  · simp only [Option.some.injEq] at h
    rw [← h, List.mem_filter]
    constructor
    · exact fun hh => hh.1
    · intro hxr
      refine ⟨hxr, ?_⟩
      by_cases e : (getId x == id) = true
      · simp only [beq_iff_eq] at e
        exact absurd (hrow x hxr e) hx
      · simpa using e
  · exact absurd h (by simp)

/-- With a primary key, the rows carrying the id of a row found by id are that
row. -/
theorem found_row_trip {α : Type} (getId getTrip : α → String) (id trip : String)
    (rows : List α) (it : α) (hu : rows.Pairwise (fun a b => getId a ≠ getId b))
    (hfind : rows.find? (fun r => getId r == id) = some it) (htrip : getTrip it = trip) :
    ∀ y ∈ rows, getId y = id → getTrip y = trip := by
  intro y hy hid
  have h1 := List.find?_some hfind
  have h2 := List.mem_of_find?_eq_some hfind
  simp only [beq_iff_eq] at h1
  rw [pairwise_ids_eq hu hy h2 (hid.trans h1.symm)]
  exact htrip

theorem sameOutside_refl (tripId : String) (s : Store) : SameOutside tripId s s :=
  ⟨fun _ _ => Iff.rfl, fun _ _ => Iff.rfl, fun _ _ => Iff.rfl, fun _ _ => Iff.rfl,
    fun _ _ => Iff.rfl⟩

theorem createRow_frame {α : Type} (getId getTrip : α → String) (trip : String)
    (row : α) (rows rows2 : List α) (hrow : getTrip row = trip)
    (h : createRow getId row rows = some rows2)
    (x : α) (hx : getTrip x ≠ trip) : x ∈ rows2 ↔ x ∈ rows := by
  unfold createRow at h
  split at h
  · exact absurd h (by simp)
  · simp only [Option.some.injEq] at h
    rw [← h, List.mem_append, List.mem_singleton]
    constructor
    · rintro (hh | hh)
      · exact hh
      · exact absurd (by rw [hh]; exact hrow) hx
    · exact Or.inl

/-- Every mutating handler other than `updateDay` leaves the rows of every
other trip than the one of the route as they were, ids being primary keys. -/
theorem mutation_stays_in_trip (h : Handler) (s : Store) (env : Env) (req : Req)
    (hm : h.mutating = true) (hne : h ≠ .updateDay)
    (hitems : UniqueItemIds s.checklist) (hdays : UniqueDayIds s.days) :
    SameOutside req.tripId s (h.run s env req).1 := by
  cases h <;> simp only [Handler.mutating, Bool.false_eq_true] at hm
  case updateDay => exact absurd rfl hne
  case updateTrip =>
    simp only [Handler.run, updateTrip]
    split
    · exact sameOutside_refl _ _
    · split
      · exact sameOutside_refl _ _
      · split
        · exact sameOutside_refl _ _
        · rename_i hu
          exact ⟨fun t ht => updateById_frame Trip.id Trip.id req.tripId req.tripId _ _ _ _
            hu (fun _ _ e => e) (fun _ e => e) t ht,
            fun _ _ => Iff.rfl, fun _ _ => Iff.rfl, fun _ _ => Iff.rfl, fun _ _ => Iff.rfl⟩
  case deleteTrip =>
    simp only [Handler.run, deleteTrip]
    split
    · exact sameOutside_refl _ _
    · split
      · exact sameOutside_refl _ _
      · rename_i hd
        obtain ⟨h1, h2, h3, h4, h5⟩ := deleteTripCascade_eq _ _ _ hd
        refine ⟨fun t ht => ?_, fun m hm => ?_, fun c _ => by rw [h1], fun i hi => ?_,
          fun d hd => ?_⟩
        · rw [h5, List.mem_filter]; simp [ht]
        · rw [h2, List.mem_filter]; simp [hm]
        · rw [h3, List.mem_filter]; simp [hi]
        · rw [h4, List.mem_filter]; simp [hd]
  case addDay =>
    simp only [Handler.run, addDay]
    split
    · exact sameOutside_refl _ _
    · split
      · exact sameOutside_refl _ _
      · rename_i hc
        exact ⟨fun _ _ => Iff.rfl, fun _ _ => Iff.rfl, fun _ _ => Iff.rfl, fun _ _ => Iff.rfl,
          fun d hd => createRow_frame Day.id Day.tripId req.tripId _ _ _ rfl hc d hd⟩
  case deleteDay =>
    simp only [Handler.run, deleteDay]
    split
    · exact sameOutside_refl _ _
    · split
      · exact sameOutside_refl _ _
      · rename_i day hf
        split
        · exact sameOutside_refl _ _
        · rename_i hd
          have h1 := List.find?_some hf
          have h2 := List.mem_of_find?_eq_some hf
          simp only [Bool.and_eq_true, beq_iff_eq] at h1
          refine ⟨fun _ _ => Iff.rfl, fun _ _ => Iff.rfl, fun _ _ => Iff.rfl,
            fun _ _ => Iff.rfl,
            fun d hdd => deleteById_frame Day.id Day.tripId req.dayId req.tripId _ _ ?_ hd d hdd⟩
          intro y hy hid
          rw [pairwise_ids_eq hdays hy h2 (hid.trans h1.1.symm)]
          exact h1.2
  case addChecklistItem =>
    simp only [Handler.run, addChecklistItem]
    split
    · exact sameOutside_refl _ _
    · split
      · exact sameOutside_refl _ _
      · split
        · exact sameOutside_refl _ _
        · rename_i hc
          exact ⟨fun _ _ => Iff.rfl, fun _ _ => Iff.rfl, fun _ _ => Iff.rfl,
            fun i hi => createRow_frame CheckItem.id CheckItem.tripId req.tripId _ _ _ rfl hc i hi,
            fun _ _ => Iff.rfl⟩
  case toggleCheckItem =>
    simp only [Handler.run, toggleCheckItem]
    split
    · exact sameOutside_refl _ _
    · rename_i item hf
      split
      · exact sameOutside_refl _ _
      · rename_i ht
        split
        · exact sameOutside_refl _ _
        · split
          · exact sameOutside_refl _ _
          · rename_i hu
            have ht2 : item.tripId = req.tripId := by simpa using ht
            exact ⟨fun _ _ => Iff.rfl, fun _ _ => Iff.rfl, fun _ _ => Iff.rfl,
              fun i hi => updateById_frame CheckItem.id CheckItem.tripId req.itemId req.tripId
                _ _ _ _ hu (found_row_trip _ _ _ _ _ item hitems hf ht2) (fun _ e => e) i hi,
              fun _ _ => Iff.rfl⟩
  case updateCheckItem =>
    simp only [Handler.run, updateCheckItem]
    split
    · exact sameOutside_refl _ _
    · split
      · exact sameOutside_refl _ _
      · split
        · exact sameOutside_refl _ _
        · rename_i item hf
          split
          · exact sameOutside_refl _ _
          · rename_i ht
            split
            · exact sameOutside_refl _ _
            · rename_i hu
              have ht2 : item.tripId = req.tripId := by simpa using ht
              exact ⟨fun _ _ => Iff.rfl, fun _ _ => Iff.rfl, fun _ _ => Iff.rfl,
                fun i hi => updateById_frame CheckItem.id CheckItem.tripId req.itemId
                  req.tripId _ _ _ _ hu (found_row_trip _ _ _ _ _ item hitems hf ht2)
                  (fun _ e => e) i hi,
                fun _ _ => Iff.rfl⟩
  case deleteCheckItem =>
    simp only [Handler.run, deleteCheckItem]
    split
    · exact sameOutside_refl _ _
    · split
      · exact sameOutside_refl _ _
      · rename_i item hf
        split
        · exact sameOutside_refl _ _
        · rename_i ht
          split
          · exact sameOutside_refl _ _
          · rename_i hd
            have ht2 : item.tripId = req.tripId := by simpa using ht
            exact ⟨fun _ _ => Iff.rfl, fun _ _ => Iff.rfl, fun _ _ => Iff.rfl,
              fun i hi => deleteById_frame CheckItem.id CheckItem.tripId req.itemId req.tripId
                _ _ (found_row_trip _ _ _ _ _ item hitems hf ht2) hd i hi,
              fun _ _ => Iff.rfl⟩
  case createInvite =>
    simp only [Handler.run, createInvite]
    split
    · exact sameOutside_refl _ _
    · split
      · exact sameOutside_refl _ _
      · split
        · exact sameOutside_refl _ _
        · rename_i hc
          obtain ⟨he, -⟩ := createAccessCode_eq hc
          refine ⟨fun _ _ => Iff.rfl, fun _ _ => Iff.rfl, fun c hcn => ?_, fun _ _ => Iff.rfl,
            fun _ _ => Iff.rfl⟩
          show c ∈ _ ↔ c ∈ s.accessCodes
          rw [he, List.mem_append, List.mem_singleton]
          constructor
          · rintro (hh | hh)
            · exact hh
            · exact absurd (by rw [hh]; rfl) hcn
          · exact Or.inl

/-! ## Issuing a code (C11) -/

/-- C11: `createInvite` answers 400 `INVALID_ROLE` exactly when the requested
role is neither `admin` nor `viewer`, and then leaves the database, the
`accessCode` table included, as it was; when it answers 201 the caller may edit
the trip of the route and exactly one code has been stored, with the requested
role and that trip, `maxUses = 1` when the type is `single` and `maxUses` unset
for every other type. -/
theorem createInvite_role_and_mode (s : Store) (env : Env) (req : Req) :
    ((createInvite s env req).2 = fail 400 "INVALID_ROLE" ↔
      ¬(req.role = some "admin" ∨ req.role = some "viewer")) ∧
    (¬(req.role = some "admin" ∨ req.role = some "viewer") →
      (createInvite s env req).1 = s) ∧
    ((createInvite s env req).2.status = 201 →
      ∃ c, (createInvite s env req).1.accessCodes = s.accessCodes ++ [c] ∧
        s.findEditable req.tripId (principal req) ≠ none ∧
        some c.role = req.role ∧ c.tripId = req.tripId ∧
        (req.type = some "single" → c.maxUses = some 1) ∧
        (req.type ≠ some "single" → c.maxUses = none)) := by
  by_cases hv : req.role = some "admin" ∨ req.role = some "viewer"
  · have hr : ¬ (!(req.role == some "admin" || req.role == some "viewer")) = true := by
      rcases hv with h | h <;> simp [h]
    refine ⟨?_, fun hn => absurd hv hn, ?_⟩
    · constructor
      · intro h
        exfalso
        cases hfe : s.findEditable req.tripId (principal req) with
        | none => simp [createInvite, hr, hfe, fail] at h
        | some t =>
          cases hc : createAccessCode (newAccessCode env.newId req.tripId (req.role.getD "")
              env.random (if req.type == some "single" then some 1 else none)) s.accessCodes with
          | none =>
            have hc2 := hc
            simp only [beq_iff_eq] at hc2
            simp [createInvite, hr, hfe, hc2, fail] at h
          | some cs =>
            have hc2 := hc
            simp only [beq_iff_eq] at hc2
            simp [createInvite, hr, hfe, hc2, fail] at h
      · intro hn; exact absurd hv hn
    · intro hst
      cases hfe : s.findEditable req.tripId (principal req) with
      | none => simp [createInvite, hr, hfe, fail] at hst
      | some t =>
        cases hc : createAccessCode (newAccessCode env.newId req.tripId (req.role.getD "")
            env.random (if req.type == some "single" then some 1 else none)) s.accessCodes with
        | none =>
          have hc2 := hc
          simp only [beq_iff_eq] at hc2
          simp [createInvite, hr, hfe, hc2, fail] at hst
        | some cs =>
          have hc2 := hc
          simp only [beq_iff_eq] at hc2
          refine ⟨newAccessCode env.newId req.tripId (req.role.getD "")
            env.random (if req.type == some "single" then some 1 else none), ?_, by simp, ?_, rfl,
            ?_, ?_⟩
          · have he := (createAccessCode_eq hc).1
            simp only [beq_iff_eq] at he
            simp [createInvite, hr, hfe, hc2, he]
          · rcases hv with h | h <;> simp [newAccessCode, h]
          · intro ht; simp [newAccessCode, ht]
          · intro ht; simp [newAccessCode, ht]
  · have hr : (!(req.role == some "admin" || req.role == some "viewer")) = true := by
      simp only [not_or] at hv
      simp [hv.1, hv.2]
    refine ⟨⟨fun _ => hv, fun _ => ?_⟩, fun _ => ?_, fun hst => ?_⟩
    · simp [createInvite, hr]
    · simp [createInvite, hr]
    · simp [createInvite, hr, fail] at hst

/-- Witness of C11: `alice` asks for a single-use viewer code on her trip and
one code with `maxUses = 1` is stored; she asks for the role `editor` and is
answered `INVALID_ROLE`. -/
theorem createInvite_role_and_mode_witness :
    (∃ c, (createInvite tourStore inviteEnv aliceInvitesSingle).1.accessCodes
        = tourStore.accessCodes ++ [c] ∧ c.role = "viewer" ∧ c.tripId = "t1" ∧
        c.maxUses = some 1) ∧
    (createInvite tourStore inviteEnv aliceInvitesEditor).2 = fail 400 "INVALID_ROLE" := by
  constructor
  · obtain ⟨c, h1, -, h3, h4, h5, -⟩ :=
      (createInvite_role_and_mode tourStore inviteEnv aliceInvitesSingle).2.2 (by decide)
    refine ⟨c, h1, ?_, h4, h5 rfl⟩
    have : some c.role = some "viewer" := h3
    exact Option.some.inj this
  · exact (createInvite_role_and_mode tourStore inviteEnv aliceInvitesEditor).1.mpr (by decide)

/-! ## Membership rows of owners (C12) -/

/-- A membership row present after a call was there before, or it is the row
of the caller of `joinTripByCode`. -/
theorem run_members_new (h : Handler) (s : Store) (env : Env) (req : Req) (m : TripMember)
    (hm : m ∈ (h.run s env req).1.members) :
    m ∈ s.members ∨ (h = .joinTripByCode ∧ principal req = m.userId) := by
  rcases run_members h s env req with he | ⟨invite, -, hj, -, -, he⟩ | ⟨-, -, he⟩
  · rw [he] at hm; exact Or.inl hm
  · rw [he] at hm
    by_cases hk : m.tripId = invite.tripId ∧ m.userId = principal req
    · exact Or.inr ⟨hj, hk.2.symm⟩
    · exact Or.inl ((upsertMember_other _ _ _ _ m hk).mp hm)
  · rw [he] at hm; exact Or.inl (List.mem_filter.mp hm).1

/-- A membership row present after a sequence of calls was there before, or
its principal called `joinTripByCode` in the sequence. -/
theorem runAll_members_new (calls : List (Handler × Env × Req)) :
    ∀ (s : Store) (m : TripMember), m ∈ (runAll calls s).members →
      m ∈ s.members ∨
        ∃ call ∈ calls, call.1 = Handler.joinTripByCode ∧ principal call.2.2 = m.userId := by
  induction calls with
  | nil => intro s m hm; exact Or.inl hm
  | cons call rest ih =>
    intro s m hm
    obtain ⟨h, env, req⟩ := call
    rcases ih _ m hm with h1 | ⟨c, hc, hj, hp⟩
    · rcases run_members_new h s env req m h1 with h2 | ⟨hj, hp⟩
      · exact Or.inl h2
      · exact Or.inr ⟨(h, env, req), List.mem_cons_self _ _, hj, hp⟩
    · exact Or.inr ⟨c, List.mem_cons_of_mem _ hc, hj, hp⟩

/-- The owner of a trip is answered `admin` by `getTrip`, whatever membership
rows there are. -/
theorem owner_is_admin (s : Store) (env : Env) (req : Req) (T : Trip)
    (hT : T ∈ s.trips) (hids : UniqueTripIds s.trips) :
    (getTrip s env ((req.sentBy (some T.createdById)).onTrip T.id)).2.currentRole
      = some "admin" := by
  have hread : s.readableBy T.createdById T = true := by
    rw [readableBy_iff]; exact Or.inl rfl
  have hf := findReadable_eq s T T.createdById hT hids
  simp only [hread, if_true] at hf
  simp only [getTrip, principal, Req.sentBy, Req.onTrip, Option.getD_some, hf, respondDetail,
    Response.currentRole, roleExpr, Store.detail]
  simp

/-- Counterexample to C12 as stated: from the empty database, `alice` creates
a trip and a code for it and redeems the code; the database then holds a
membership row for `alice` on the trip she owns. -/
theorem owner_row_counterexample :
    (runAll ownerSession Store.empty).trips.map Trip.id = ["t1"] ∧
    (runAll ownerSession Store.empty).trips.map Trip.createdById = ["alice"] ∧
    (runAll ownerSession Store.empty).members = [ownerRow] ∧
    ownerRow.userId = "alice" ∧ ownerRow.tripId = "t1" := by
  decide

theorem upsertMember_mem_cases (tripId userId role : String) (ms : List TripMember)
    (m : TripMember) (hm : m ∈ upsertMember tripId userId role ms) :
    m ∈ ms ∨ m = ⟨tripId, userId, role⟩ := by
  unfold upsertMember at hm
  split at hm
  · rw [List.mem_map] at hm
    obtain ⟨x, hx, hfx⟩ := hm
    by_cases e : (x.tripId == tripId && x.userId == userId) = true
    · simp only [e, if_true] at hfx
      simp only [Bool.and_eq_true, beq_iff_eq] at e
      right
      rw [← hfx, e.1, e.2]
    · simp only [e, if_false, Bool.false_eq_true] at hfx
      left
      rw [← hfx]; exact hx
  · rw [List.mem_append, List.mem_singleton] at hm
    exact hm

/-- A `joinTripByCode` call that carries no code changes nothing. -/
theorem joinTripByCode_no_code (s : Store) (env : Env) (req : Req)
    (h : truthy req.code = false) : (joinTripByCode s env req).1 = s := by
  simp [joinTripByCode, h]

/-- A membership row present after a call was there before, or the call is a
`joinTripByCode` that found a code, neither exhausted nor expired, and the row
is the caller's row on the trip of that code with the role of that code. -/
theorem run_members_redeemed (h : Handler) (s : Store) (env : Env) (req : Req)
    (m : TripMember) (hm : m ∈ (h.run s env req).1.members) :
    m ∈ s.members ∨
      (h = .joinTripByCode ∧ truthy req.code = true ∧
        ∃ invite, s.accessCodes.find? (fun c => some c.code == req.code) = some invite ∧
          invite.exhausted = false ∧ invite.expired env.now = false ∧
          m = ⟨invite.tripId, principal req, invite.role⟩) := by
  rcases run_members h s env req with he | ⟨invite, hf, hj, hex, hxp, he⟩ | ⟨-, -, he⟩
  · rw [he] at hm; exact Or.inl hm
  · by_cases ht : truthy req.code = true
    · rw [he] at hm
      rcases upsertMember_mem_cases _ _ _ _ m hm with h1 | h1
      · exact Or.inl h1
      · exact Or.inr ⟨hj, ht, invite, hf, hex, hxp, h1⟩
    · have ht2 : truthy req.code = false := by simpa using ht
      subst hj
      simp only [Handler.run, joinTripByCode_no_code s env req ht2] at hm
      exact Or.inl hm
  · rw [he] at hm; exact Or.inl (List.mem_filter.mp hm).1

theorem runAll_append (pre post : List (Handler × Env × Req)) (s : Store) :
    runAll (pre ++ post) s = runAll post (runAll pre s) := by
  induction pre generalizing s with
  | nil => rfl
  | cons call rest ih =>
    obtain ⟨h, env, req⟩ := call
    simp only [List.cons_append, runAll]
    exact ih _

/-- A membership row present after a sequence of calls was there before, or
one call of the sequence is a `joinTripByCode` that found, in the database as
the calls before it left it, a code neither exhausted nor expired, and the row
is the caller's row on the trip of that code with the role of that code. -/
theorem runAll_members_redeemed (calls : List (Handler × Env × Req)) :
    ∀ (s : Store) (m : TripMember), m ∈ (runAll calls s).members →
      m ∈ s.members ∨
        ∃ pre call post invite, calls = pre ++ call :: post ∧
          call.1 = Handler.joinTripByCode ∧ truthy call.2.2.code = true ∧
          (runAll pre s).accessCodes.find? (fun c => some c.code == call.2.2.code)
            = some invite ∧
          invite.exhausted = false ∧ invite.expired call.2.1.now = false ∧
          m = ⟨invite.tripId, principal call.2.2, invite.role⟩ := by
  intro s m
  induction calls generalizing s with
  | nil => intro hm; exact Or.inl hm
  | cons call rest ih =>
    intro hm
    obtain ⟨h, env, req⟩ := call
    rcases ih (h.run s env req).1 hm with h1 | ⟨pre, c, post, invite, hc, hj, ht, hf, hex, hxp, hrow⟩
    · rcases run_members_redeemed h s env req m h1 with h2 | ⟨hj, ht, invite, hf, hex, hxp, hrow⟩
      · exact Or.inl h2
      · exact Or.inr ⟨[], (h, env, req), rest, invite, rfl, hj, ht, hf, hex, hxp, hrow⟩
    · refine Or.inr ⟨(h, env, req) :: pre, c, post, invite, ?_, hj, ht, hf, hex, hxp, hrow⟩
      rw [hc]; rfl

/-- A `joinTripByCode` call that finds a code, neither exhausted nor expired,
stores the caller's row on the trip of the code with the role of the code,
whoever the caller is and whatever the answer. -/
theorem joinTripByCode_stores_row (s : Store) (env : Env) (req : Req) (invite : AccessCode)
    (ht : truthy req.code = true)
    (hf : s.accessCodes.find? (fun c => some c.code == req.code) = some invite)
    (hex : invite.exhausted = false) (hxp : invite.expired env.now = false) :
    (⟨invite.tripId, principal req, invite.role⟩ : TripMember)
      ∈ (joinTripByCode s env req).1.members := by
  obtain ⟨m, hm, h1, h2, h3⟩ :=
    upsertMember_mem invite.tripId (principal req) invite.role s.members
  have hm2 : (⟨invite.tripId, principal req, invite.role⟩ : TripMember) = m := by
    cases m; simp_all
  rw [hm2]
  simp only [joinTripByCode, ht, Bool.not_true, Bool.false_eq_true, if_false, hf, hex, hxp]
  by_cases hcap : invite.capped = true
  · simp only [hcap, if_true]
    cases hi : incrementUsed invite.id s.accessCodes with
    | none => exact hm
    | some p =>
      simp only [Option.map_some']
      split <;> exact hm
  · simp only [hcap, Bool.false_eq_true, if_false]
    split <;> exact hm

/-- C12, amended: a membership row found after any sequence of handler calls
was in the database before the sequence, or one call of the sequence is a
`joinTripByCode` that carried a code found in the database as the calls before
it left it, neither exhausted nor expired at that time, and the row is the
caller's row on the trip of that code with the role of that code; so from the
empty database every row was written by a redemption of its own principal.
`createTrip` stores no membership row.  A `joinTripByCode` call that finds a
code neither exhausted nor expired stores the caller's row on the trip of the
code whoever the caller is, the owner of that trip included.  And the owner of
a trip is answered `admin` whatever membership rows there are, a row of their
own included. -/
theorem membership_rows_come_from_redemption (calls : List (Handler × Env × Req))
    (s : Store) (m : TripMember) (hm : m ∈ (runAll calls s).members) :
    (m ∈ s.members ∨
      ∃ pre call post invite, calls = pre ++ call :: post ∧
        call.1 = Handler.joinTripByCode ∧ truthy call.2.2.code = true ∧
        (runAll pre s).accessCodes.find? (fun c => some c.code == call.2.2.code)
          = some invite ∧
        invite.exhausted = false ∧ invite.expired call.2.1.now = false ∧
        m = ⟨invite.tripId, principal call.2.2, invite.role⟩) ∧
    (∀ env req, (createTrip s env req).1.members = s.members) ∧
    (∀ (env : Env) (req : Req) (invite : AccessCode), truthy req.code = true →
      s.accessCodes.find? (fun c => some c.code == req.code) = some invite →
      invite.exhausted = false → invite.expired env.now = false →
      (⟨invite.tripId, principal req, invite.role⟩ : TripMember)
        ∈ (joinTripByCode s env req).1.members) ∧
    (∀ (env : Env) (req : Req) (invite : AccessCode), ∀ T ∈ s.trips,
      truthy req.code = true →
      s.accessCodes.find? (fun c => some c.code == req.code) = some invite →
      invite.exhausted = false → invite.expired env.now = false →
      invite.tripId = T.id → principal req = T.createdById →
      (⟨T.id, T.createdById, invite.role⟩ : TripMember)
        ∈ (joinTripByCode s env req).1.members) ∧
    (∀ T ∈ (runAll calls s).trips, UniqueTripIds (runAll calls s).trips →
      ∀ (env : Env) (req : Req),
      (getTrip (runAll calls s) env ((req.sentBy (some T.createdById)).onTrip T.id)).2.currentRole
        = some "admin") := by
  refine ⟨runAll_members_redeemed calls s m hm, fun env req => ?_,
    fun env req invite ht hf hex hxp => joinTripByCode_stores_row s env req invite ht hf hex hxp,
    fun env req invite T _ ht hf hex hxp hid hp => ?_,
    fun T hT hids env req => owner_is_admin _ env req T hT hids⟩
  · rcases run_members .createTrip s env req with he | ⟨_, _, hj, _⟩ | ⟨hj, _⟩
    · exact he
    · cases hj
    · cases hj
  · rw [← hid, ← hp]
    exact joinTripByCode_stores_row s env req invite ht hf hex hxp

/-- Witness of C12, amended: the row of `alice` on her own trip in
`ownerSession` was written by a `joinTripByCode` call of the session that
found a code for that trip, neither exhausted nor expired. -/
theorem membership_rows_come_from_redemption_witness :
    ownerRow ∈ Store.empty.members ∨
      ∃ pre call post invite, ownerSession = pre ++ call :: post ∧
        call.1 = Handler.joinTripByCode ∧ truthy call.2.2.code = true ∧
        (runAll pre Store.empty).accessCodes.find? (fun c => some c.code == call.2.2.code)
          = some invite ∧
        invite.exhausted = false ∧ invite.expired call.2.1.now = false ∧
        ownerRow = ⟨invite.tripId, principal call.2.2, invite.role⟩ :=
  (membership_rows_come_from_redemption ownerSession Store.empty ownerRow (by decide)).1

/-! ## A spent code stays spent (C13) -/

/-- One call keeps the keys of the `accessCode` table and every code, with the
same fields and a count that has not gone down. -/
theorem run_codes_keys (h : Handler) (s : Store) (env : Env) (req : Req)
    (hids : UniqueCodeIds s.accessCodes) (hcodes : UniqueCodes s.accessCodes) :
    UniqueCodeIds (h.run s env req).1.accessCodes ∧
    UniqueCodes (h.run s env req).1.accessCodes ∧
    ∀ c ∈ s.accessCodes, ∃ c2 ∈ (h.run s env req).1.accessCodes, CodeGrew c c2 := by
  rcases run_accessCodes h s env req with he | ⟨c, hc, -⟩ | ⟨invite, hf, -, -, -, -, hi⟩
  · rw [he]
    exact ⟨hids, hcodes, fun c hc => ⟨c, hc, rfl, le_refl _⟩⟩
  · obtain ⟨he, hfresh⟩ := createAccessCode_eq hc
    rw [he]
    refine ⟨?_, ?_, fun x hx => ⟨x, by simp [hx], rfl, le_refl _⟩⟩
    · unfold UniqueCodeIds at *
      rw [List.pairwise_append]
      refine ⟨hids, by simp, fun a ha b hb => ?_⟩
      simp only [List.mem_singleton] at hb
      rw [hb]; exact (hfresh a ha).1
    · unfold UniqueCodes at *
      rw [List.pairwise_append]
      refine ⟨hcodes, by simp, fun a ha b hb => ?_⟩
      simp only [List.mem_singleton] at hb
      rw [hb]; exact (hfresh a ha).2
  · have hmem := List.mem_of_find?_eq_some hf
    rw [incrementUsed, updateById_unique hids hmem] at hi
    simp only [Option.map_some', Option.some.injEq] at hi
    rw [← hi]
    refine ⟨?_, ?_, ?_⟩
    · unfold UniqueCodeIds at *
      rw [List.pairwise_map]
      refine hids.imp ?_
      intro a b hab
      by_cases ea : a = invite <;> by_cases eb : b = invite <;> simp [ea, eb] <;>
        simp_all
    · unfold UniqueCodes at *
      rw [List.pairwise_map]
      refine hcodes.imp ?_
      intro a b hab
      by_cases ea : a = invite <;> by_cases eb : b = invite <;> simp [ea, eb] <;>
        simp_all
    · intro x hx
      by_cases e : x = invite
      · exact ⟨{ x with usedCount := x.usedCount + 1 },
          List.mem_map.mpr ⟨x, hx, by simp [e]⟩, rfl, by simp⟩
      · exact ⟨x, List.mem_map.mpr ⟨x, hx, by simp [e]⟩, rfl, le_refl _⟩

/-- Any sequence of calls keeps the keys of the `accessCode` table and every
code, with the same fields and a count that has not gone down. -/
theorem runAll_codes_keys (calls : List (Handler × Env × Req)) :
    ∀ s : Store, UniqueCodeIds s.accessCodes → UniqueCodes s.accessCodes →
      UniqueCodeIds (runAll calls s).accessCodes ∧
      UniqueCodes (runAll calls s).accessCodes ∧
      ∀ c ∈ s.accessCodes, ∃ c2 ∈ (runAll calls s).accessCodes, CodeGrew c c2 := by
  induction calls with
  | nil =>
    intro s hids hcodes
    exact ⟨hids, hcodes, fun c hc => ⟨c, hc, rfl, le_refl _⟩⟩
  | cons call rest ih =>
    intro s hids hcodes
    obtain ⟨h, env, req⟩ := call
    obtain ⟨h1, h2, h4⟩ := run_codes_keys h s env req hids hcodes
    obtain ⟨k1, k2, k4⟩ := ih (h.run s env req).1 h1 h2
    refine ⟨k1, k2, fun c hc => ?_⟩
    obtain ⟨c2, hc2, g2⟩ := h4 c hc
    obtain ⟨c3, hc3, g3⟩ := k4 c2 hc2
    exact ⟨c3, hc3, codeGrew_trans g2 g3⟩

theorem find?_of_filter_singleton {α : Type} (p : α → Bool) (l : List α) (x : α)
    (h : l.filter p = [x]) : l.find? p = some x := by
  induction l with
  | nil => simp at h
  | cons a rest ih =>
    by_cases ha : p a = true
    · simp only [List.filter_cons, ha, if_true, List.cons.injEq] at h
      obtain ⟨rfl, -⟩ := h
      simp [List.find?_cons, ha]
    · simp only [List.filter_cons, ha, if_false, Bool.false_eq_true] at h
      simp only [List.find?_cons]
      have : p a = false := by simpa using ha
      rw [this]
      exact ih h

/-- The role a `joinTripByCode` call answered 200 reports: `admin` for the
owner of the code's trip, the role of the code for anyone else. -/
theorem joinTripByCode_role (s : Store) (env : Env) (req : Req) (invite : AccessCode)
    (s1 : Store) (r1 : Response)
    (hf : s.accessCodes.find? (fun c => some c.code == req.code) = some invite)
    (hkey : UniqueMemberKeys s.members)
    (hrole : invite.role = "admin" ∨ invite.role = "viewer")
    (h1 : joinTripByCode s env req = (s1, r1)) (hok : r1.status = 200) :
    ∃ trip ∈ s1.trips, trip.id = invite.tripId ∧
      r1.currentRole
        = some (if trip.createdById = principal req then "admin" else invite.role) := by
  obtain ⟨inv, trip, -, hf2, -, -, -, -, -, hm, -, ht, hr⟩ :=
    joinTripByCode_ok s env req s1 r1 h1 hok
  rw [hf] at hf2
  cases hf2
  have hid : trip.id = invite.tripId := by simpa using List.find?_some ht
  refine ⟨trip, List.mem_of_find?_eq_some ht, hid, ?_⟩
  rw [hr]
  simp only [respondDetail, Response.currentRole, roleExpr, Store.detail, Option.some.injEq]
  by_cases ho : trip.createdById = principal req
  · simp [ho]
  · have hfind : (s1.members.filter (fun m => m.tripId == trip.id)).find?
        (fun m => m.userId == principal req)
        = some ⟨invite.tripId, principal req, invite.role⟩ := by
      rw [List.find?_filter, hid]
      apply find?_of_filter_singleton
      rw [hm]
      convert upsertMember_filter invite.tripId (principal req) invite.role s.members hkey
        using 2
      funext a
      simp
      rfl
    have hne : invite.role ≠ "" := by
      rcases hrole with h | h <;> rw [h] <;> decide
    simp only [beq_iff_eq, ho, if_false, hfind, ne_eq, hne, not_false_eq_true, if_true]

/-- Counterexample to C13 as stated: `alice`, the owner of `lisboa`, redeems
the single-use viewer code `freshCode`; the call succeeds and her role is
`admin`, not the role of the code. -/
theorem owner_redeems_counterexample :
    freshCode ∈ raceStore.accessCodes ∧ freshCode.maxUses = some 1 ∧
    freshCode.role = "viewer" ∧ aliceJoins.code = some freshCode.code ∧
    (joinTripByCode raceStore sampleEnv aliceJoins).2.status = 200 ∧
    (joinTripByCode raceStore sampleEnv aliceJoins).2.currentRole = some "admin" ∧
    (joinTripByCode raceStore sampleEnv aliceJoins).2.currentRole ≠ some freshCode.role := by
  decide

/-- C13, amended: in a database that respects the keys of `accessCode` and of
`tripMember`, take a single-use code (`maxUses = 1`) with a role of the data
model and a count that is not negative.  Once a `joinTripByCode` call carrying
it has answered 200, the role it reports on the code's trip is the role of the
code, or `admin` when the caller owns that trip; and after any sequence of
handler calls, every `joinTripByCode` call carrying that code, by any
principal and at any time, is answered 400 `INVITE_ALREADY_USED` and changes
nothing. -/
theorem single_use_code_stays_spent (s : Store) (env env2 : Env) (req req2 : Req)
    (invite : AccessCode) (s1 : Store) (r1 : Response) (calls : List (Handler × Env × Req))
    (hmem : invite ∈ s.accessCodes) (hcodes : UniqueCodes s.accessCodes)
    (hids : UniqueCodeIds s.accessCodes) (hkey : UniqueMemberKeys s.members)
    (hsingle : invite.maxUses = some 1) (hused : 0 ≤ invite.usedCount)
    (hrole : invite.role = "admin" ∨ invite.role = "viewer")
    (hreq : req.code = some invite.code)
    (h1 : joinTripByCode s env req = (s1, r1)) (hok : r1.status = 200)
    (hreq2 : req2.code = some invite.code) :
    (∃ trip ∈ s1.trips, trip.id = invite.tripId ∧
      r1.currentRole
        = some (if trip.createdById = principal req then "admin" else invite.role)) ∧
    joinTripByCode (runAll calls s1) env2 req2
      = (runAll calls s1, fail 400 "INVITE_ALREADY_USED") := by
  have hf := find_code_eq hmem hcodes hreq
  refine ⟨joinTripByCode_role s env req invite s1 r1 hf hkey hrole h1 hok, ?_⟩
  obtain ⟨inv, -, htr, hf2, -, -, -, -, -, -, hc, -, -⟩ :=
    joinTripByCode_ok s env req s1 r1 h1 hok
  rw [hf] at hf2
  cases hf2
  have hcap : invite.capped = true := by simp [AccessCode.capped, hsingle]
  simp only [hcap, if_true, incrementUsed] at hc
  rw [updateById_unique hids hmem] at hc
  simp only [Option.map_some', Option.some.injEq] at hc
  have hin : ({ invite with usedCount := invite.usedCount + 1 } : AccessCode) ∈ s1.accessCodes := by
    rw [← hc, List.mem_map]
    exact ⟨invite, hmem, by simp⟩
  have hkeys := run_codes_keys .joinTripByCode s env req hids hcodes
  simp only [Handler.run, h1] at hkeys
  obtain ⟨-, hcodes2, hgrew⟩ := runAll_codes_keys calls s1 hkeys.1 hkeys.2.1
  obtain ⟨c2, hc2, he, hle⟩ := hgrew _ hin
  have hcode2 : req2.code = some c2.code := by rw [he]; exact hreq2
  have hne : c2.code ≠ "" := by
    rw [he]
    intro h0
    have htr2 : truthy req.code = true := htr
    rw [hreq] at htr2
    simp [truthy] at htr2
    exact htr2 h0
  have hmax2 : c2.maxUses = some 1 := by rw [he]; exact hsingle
  have hex : c2.exhausted = true := by
    simp only [AccessCode.exhausted, hmax2]
    simp only [] at hle
    simp
    omega
  have ht2 : truthy req2.code = true := by simp [truthy, hcode2, hne]
  simp [joinTripByCode, ht2, find_code_eq hc2 hcodes2 hcode2, hex]

/-- Witness of C13, amended: `bob` redeems `freshCode`; the owner then deletes
the trip and `bob` tries again; after that `carol` is still refused with
`INVITE_ALREADY_USED`. -/
theorem single_use_code_stays_spent_witness :
    joinTripByCode (runAll laterCalls (joinTripByCode raceStore sampleEnv bobJoins).1)
        sampleEnv carolJoins
      = (runAll laterCalls (joinTripByCode raceStore sampleEnv bobJoins).1,
          fail 400 "INVITE_ALREADY_USED") :=
  (single_use_code_stays_spent raceStore sampleEnv sampleEnv bobJoins carolJoins freshCode
    (joinTripByCode raceStore sampleEnv bobJoins).1
    (joinTripByCode raceStore sampleEnv bobJoins).2 laterCalls
    (by decide) (by decide) (by decide) (by decide) rfl (by decide) (by decide) rfl rfl
    (by decide) rfl).2

end Portulano
